import Mathlib

/-!
Shallow embedding of the core of the `google-form-exporter` repository
(`src/exportForm.js`, `src/toMarkdown.js`) and proofs about the claims of
its natural-language specification.

Conventions of the embedding:
* Google Apps Script objects (`FormApp.Form`, `FormApp.Item`, choices,
  blobs) become Lean structures holding the values their getters return.
* Getters that the JavaScript guards with `typeof`-probes or `try`/`catch`
  (`isRequired`, `getChoices`, `hasOtherOption`) are modelled as
  `Option (Except String _)`: `none` means the method is absent,
  `.error msg` means calling it throws `msg`.
* `Logger.log` becomes an explicit log list returned next to the result.
* `FormApp.getActiveForm()` (called inside `renderItemBodyMarkdown`)
  becomes an explicit `active : Option Form` argument of the prose
  exporter: it is provider state, not part of the snapshot.
* JavaScript string falsiness (`if (text)`, `title || ""`) becomes
  explicit comparison with the empty string.
-/

namespace GFE

/-- Item type tags of `FormApp.ItemType` as used by the two exporters.
`OTHER tag` stands for any further tag (DATE, TIME, SECTION_HEADER, ...)
that reaches only the `default` branches. -/
inductive ItemType where
  | TEXT
  | PARAGRAPH_TEXT
  | MULTIPLE_CHOICE
  | CHECKBOX
  | LIST
  | SCALE
  | IMAGE
  | PAGE_BREAK
  | VIDEO
  | OTHER (tag : String)
  deriving DecidableEq, Repr

/-- `ItemType.toString()` of Apps Script: the raw tag name. -/
def typeToString : ItemType → String
  | .TEXT => "TEXT"
  | .PARAGRAPH_TEXT => "PARAGRAPH_TEXT"
  | .MULTIPLE_CHOICE => "MULTIPLE_CHOICE"
  | .CHECKBOX => "CHECKBOX"
  | .LIST => "LIST"
  | .SCALE => "SCALE"
  | .IMAGE => "IMAGE"
  | .PAGE_BREAK => "PAGE_BREAK"
  | .VIDEO => "VIDEO"
  | .OTHER tag => tag

/-- `FormApp.PageNavigationType`. -/
inductive NavType where
  | CONTINUE
  | SUBMIT
  | GO_TO_PAGE
  | RESTART
  deriving DecidableEq, Repr

/-- `PageNavigationType.toString()`. -/
def navTypeToString : NavType → String
  | .CONTINUE => "CONTINUE"
  | .SUBMIT => "SUBMIT"
  | .GO_TO_PAGE => "GO_TO_PAGE"
  | .RESTART => "RESTART"

/-- A choice of a MULTIPLE_CHOICE / CHECKBOX / LIST item.
`gotoPageId` is the id of the target item of `choice.getGotoPage()`
(`none` when that call returns `null`). -/
structure Choice where
  value : String
  pageNavigationType : NavType
  gotoPageId : Option Nat
  deriving DecidableEq, Repr

/-- Image blob descriptor used by the IMAGE branch of `itemToObject`. -/
structure ImageBlob where
  dataAsString : String
  name : String
  isGoogleType : Bool
  deriving DecidableEq, Repr

instance {ε α : Type} [DecidableEq ε] [DecidableEq α] : DecidableEq (Except ε α) := fun x y =>
  match x, y with
  | .ok a, .ok b =>
    if h : a = b then .isTrue (by rw [h]) else .isFalse (by intro hc; cases hc; exact h rfl)
  | .error a, .error b =>
    if h : a = b then .isTrue (by rw [h]) else .isFalse (by intro hc; cases hc; exact h rfl)
  | .ok _, .error _ => .isFalse (by intro hc; cases hc)
  | .error _, .ok _ => .isFalse (by intro hc; cases hc)

/-- One form item, holding the values its Apps Script getters return.
Variant-specific fields are meaningful only for the matching types, just
as the corresponding getters only exist on the downcast typed item. -/
structure Item where
  type : ItemType
  title : String
  helpText : String
  id : Nat
  index : Nat
  /-- `item.isRequired`: `none` = method absent, `some (.error e)` = call
  throws, `some (.ok b)` = call returns `b`. -/
  required : Option (Except String Bool)
  /-- `typedItem.getChoices()` for choice-bearing items; may throw. -/
  choices : Except String (List Choice)
  /-- `typedItem.hasOtherOption`: same encoding as `required`. -/
  hasOther : Option (Except String Bool)
  lowerBound : Int
  upperBound : Int
  leftLabel : String
  rightLabel : String
  alignment : String
  imageBlob : ImageBlob
  /-- `typedItem.getPageNavigationType()` of a PAGE_BREAK item. -/
  pageNavigationType : NavType
  /-- id of `typedItem.getGoToPage()` of a PAGE_BREAK item. -/
  goToPageId : Option Nat
  deriving DecidableEq, Repr

/-- A form editor, exposing `user.getEmail()`. -/
structure User where
  email : String
  deriving DecidableEq, Repr

/-- A `FormApp.Form` object, holding the values its getters return.
`items` is what `form.getItems()` returns. -/
structure Form where
  title : String
  id : String
  description : String
  publishedUrl : String
  editors : List User
  items : List Item
  confirmationMessage : String
  customClosedFormMessage : String
  deriving DecidableEq, Repr

/-! ## Rich-text conversion (`convertToMarkdown`, toMarkdown.js 313-334)

The JavaScript applies seven global regex replacements in order.  The
lazy one-group patterns `<b>(.*?)</b>`, `<i>(.*?)</i>`, `<u>(.*?)</u>`
are embedded by `substTags`, the two-group anchor pattern by
`substAnchor`, and the literal `<br>` variants by `replaceLit`.  The JS
`.` does not cross a line terminator, hence `isLineTerm`.  All three
scanners are driven by a fuel argument initialised with the input
length, which each step strictly decreases, so the translation is a
structurally recursive (hence executable) rendering of the regex
engine's single left-to-right pass. -/

/-- JavaScript regex line terminators (not matched by `.`). -/
def isLineTerm (c : Char) : Bool :=
  c = '\n' || c = '\r' || c.val = 0x2028 || c.val = 0x2029

/-- Lazy search for the closing literal `cl`: returns the shortest
line-terminator-free prefix followed by `cl`, and the remainder after
`cl`; `none` when no such close exists (a terminator or the end of the
string intervenes). -/
def findLazyClose (cl : List Char) : List Char → Option (List Char × List Char)
  | [] => none
  | c :: rest =>
    if cl.isPrefixOf (c :: rest) then some ([], (c :: rest).drop cl.length)
    else if isLineTerm c then none
    else
      match findLazyClose cl rest with
      | some (content, rem) => some (c :: content, rem)
      | none => none

/-- One global pass of `text.replace(/OPEN(.*?)CLOSE/g, wrap)` with
`OPEN = o :: or`, fuel-driven. On fuel exhaustion the rest is returned
unchanged (never reached from `substTags`). -/
def substTagsF (o : Char) (orest cl : List Char) (wrap : List Char → List Char) :
    Nat → List Char → List Char
  | 0, s => s
  | _ + 1, [] => []
  | fuel + 1, c :: rest =>
    if (o :: orest).isPrefixOf (c :: rest) then
      match findLazyClose cl ((c :: rest).drop (o :: orest).length) with
      | some (content, rem) => wrap content ++ substTagsF o orest cl wrap fuel rem
      | none => c :: substTagsF o orest cl wrap fuel rest
    else c :: substTagsF o orest cl wrap fuel rest

/-- Wrapper fixing the fuel to the input length. -/
def substTags (o : Char) (orest cl : List Char) (wrap : List Char → List Char)
    (s : List Char) : List Char :=
  substTagsF o orest cl wrap s.length s

/-- One global pass of the two-group anchor pattern
`/<a href="(.*?)">(.*?)<\/a>/g` replaced by `[$2]($1)`. -/
def substAnchorF : Nat → List Char → List Char
  | 0, s => s
  | _ + 1, [] => []
  | fuel + 1, c :: rest =>
    if (['<', 'a', ' ', 'h', 'r', 'e', 'f', '=', '"']).isPrefixOf (c :: rest) then
      match findLazyClose ['"', '>'] ((c :: rest).drop 9) with
      | some (href, rest1) =>
        match findLazyClose ['<', '/', 'a', '>'] rest1 with
        | some (txt, rem) =>
          '[' :: txt ++ ']' :: '(' :: href ++ ')' :: substAnchorF fuel rem
        | none => c :: substAnchorF fuel rest
      | none => c :: substAnchorF fuel rest
    else c :: substAnchorF fuel rest

/-- Wrapper fixing the fuel to the input length. -/
def substAnchor (s : List Char) : List Char :=
  substAnchorF s.length s

/-- One global pass of a literal replacement
`text.replace(/PAT/g, repl)` with `PAT = p :: prest`. -/
def replaceLitF (p : Char) (prest repl : List Char) : Nat → List Char → List Char
  | 0, s => s
  | _ + 1, [] => []
  | fuel + 1, c :: rest =>
    if (p :: prest).isPrefixOf (c :: rest) then
      repl ++ replaceLitF p prest repl fuel ((c :: rest).drop (p :: prest).length)
    else c :: replaceLitF p prest repl fuel rest

/-- Wrapper fixing the fuel to the input length. -/
def replaceLit (p : Char) (prest repl : List Char) (s : List Char) : List Char :=
  replaceLitF p prest repl s.length s

/-- The seven substitutions of `convertToMarkdown` in source order, at
the character-list level (innermost first: bold, italic, underline,
anchor, the three line-break spellings). -/
def convertToMarkdownList (s0 : List Char) : List Char :=
  replaceLit '<' ['b', 'r', ' ', '/', '>'] ['\n']
    (replaceLit '<' ['b', 'r', '/', '>'] ['\n']
      (replaceLit '<' ['b', 'r', '>'] ['\n']
        (substAnchor
          (substTags '<' ['u', '>'] ['<', '/', 'u', '>']
            (fun x => '<' :: 'u' :: '>' :: x ++ ['<', '/', 'u', '>'])
            (substTags '<' ['i', '>'] ['<', '/', 'i', '>'] (fun x => '*' :: x ++ ['*'])
              (substTags '<' ['b', '>'] ['<', '/', 'b', '>']
                (fun x => '*' :: '*' :: x ++ ['*', '*']) s0))))))

/-- `convertToMarkdown` (toMarkdown.js 313-334): the seven substitutions
in source order; the `!text` guard maps the empty string to itself. -/
def convertToMarkdown (text : String) : String :=
  if text = "" then "" else String.mk (convertToMarkdownList text.toList)

/-! ## Structured export (`exportForm.js`) -/

/-- A normalized item record as built by `itemToObject`
(exportForm.js 73-157). `Option` fields are `none` when the
corresponding JavaScript property is never assigned. -/
structure NormRecord where
  type : String
  title : String
  helpText : String
  id : Nat
  index : Nat
  isRequired : Bool
  points : Nat
  choices : Option (List String)
  hasOtherOption : Option Bool
  lowerBound : Option Int
  upperBound : Option Int
  leftLabel : Option String
  rightLabel : Option String
  alignment : Option String
  imageBlob : Option ImageBlob
  pageNavigationType : Option String
  deriving DecidableEq, Repr

/-- Resolution of `item.isRequired` (exportForm.js 83-92): absent method
or a throwing call both fall back to `false`. -/
def itemIsRequired (item : Item) : Bool :=
  match item.required with
  | some (.ok b) => b
  | some (.error _) => false
  | none => false

/-- Choice branch of `itemToObject` (exportForm.js 105-113): value list
on success, empty list plus a log line on failure. -/
def extractChoices (item : Item) : Option (List String) × List String :=
  match item.choices with
  | .ok cs => (some (cs.map Choice.value), [])
  | .error msg =>
    (some [], ["Error getting choices for item " ++ toString item.id ++ ": " ++ msg])

/-- Resolution of `typedItem.hasOtherOption` (exportForm.js 114-122). -/
def extractHasOther (item : Item) : Bool :=
  match item.hasOther with
  | some (.ok b) => b
  | some (.error _) => false
  | none => false

/-- `itemToObject` (exportForm.js 73-157), returning the record and the
`Logger.log` lines it emits. -/
def itemToObject (item : Item) : NormRecord × List String :=
  let base : NormRecord :=
    { type := typeToString item.type
      title := item.title
      helpText := item.helpText
      id := item.id
      index := item.index
      isRequired := itemIsRequired item
      points := 0
      choices := none
      hasOtherOption := none
      lowerBound := none
      upperBound := none
      leftLabel := none
      rightLabel := none
      alignment := none
      imageBlob := none
      pageNavigationType := none }
  let (data, log) :=
    match item.type with
    | .LIST | .CHECKBOX | .MULTIPLE_CHOICE =>
      let (cs, log) := extractChoices item
      ({ base with choices := cs, hasOtherOption := some (extractHasOther item) }, log)
    | .SCALE =>
      ({ base with
          lowerBound := some item.lowerBound
          upperBound := some item.upperBound
          leftLabel := some item.leftLabel
          rightLabel := some item.rightLabel }, [])
    | .IMAGE =>
      ({ base with alignment := some item.alignment, imageBlob := some item.imageBlob }, [])
    | .PAGE_BREAK =>
      ({ base with pageNavigationType := some (navTypeToString item.pageNavigationType) }, [])
    | _ => (base, [])
  if typeToString item.type = "VIDEO" then
    ({ data with alignment := some item.alignment }, log)
  else (data, log)

/-- Metadata record of `getFormMetadata` (exportForm.js 53-66).  Its
`count` field is the length of `form.getItems()`. -/
structure Metadata where
  title : String
  id : String
  description : String
  publishedUrl : String
  editorEmails : List String
  count : Nat
  confirmationMessage : String
  customClosedFormMessage : String
  deriving DecidableEq, Repr

/-- `getFormMetadata` (exportForm.js 53-66). -/
def getFormMetadata (form : Form) : Metadata :=
  { title := form.title
    id := form.id
    description := form.description
    publishedUrl := form.publishedUrl
    editorEmails := form.editors.map User.email
    count := form.items.length
    confirmationMessage := form.confirmationMessage
    customClosedFormMessage := form.customClosedFormMessage }

/-- Result shape of `exportFormToJson`. -/
structure JsonExport where
  metadata : Metadata
  items : List NormRecord
  count : Nat
  deriving DecidableEq, Repr

/-- `exportFormToJson` (exportForm.js 34-46), given the form value the
call resolves to (`optionalForm` or the freshly fetched form — both are
the same snapshot value here) and the optional pre-fetched items.
Returns the result together with the collected log lines. -/
def exportFormToJson (form : Form) (optionalItems : Option (List Item)) :
    JsonExport × List String :=
  let items := optionalItems.getD form.items
  ({ metadata := getFormMetadata form
     items := items.map (fun it => (itemToObject it).1)
     count := items.length },
   items.flatMap (fun it => (itemToObject it).2))

/-! ## Prose export (`toMarkdown.js`) -/

/-- Value stored in the section map (toMarkdown.js 160-163). -/
structure SectionInfo where
  number : Nat
  title : String
  deriving DecidableEq, Repr

/-- Recursion of `buildSectionMap` (toMarkdown.js 153-168): `idx` is the
current item index, `sn` the number of page breaks already seen. -/
def buildSectionMapAux (idx sn : Nat) : List Item → List (Nat × SectionInfo)
  | [] => []
  | it :: rest =>
    if it.type = .PAGE_BREAK then
      (idx, { number := sn + 1
              title := if it.title = "" then "Section " ++ toString (sn + 1) else it.title }) ::
        buildSectionMapAux (idx + 1) (sn + 1) rest
    else buildSectionMapAux (idx + 1) sn rest

/-- `buildSectionMap` (toMarkdown.js 153-168), as an association list
from item index to section info. -/
def buildSectionMap (items : List Item) : List (Nat × SectionInfo) :=
  buildSectionMapAux 0 0 items

/-- The linear id search of toMarkdown.js 128-134 / 192-198: index of
the first item whose id equals `nid`, `none` standing for `-1`. -/
def findItemIndexByIdAux (nid : Nat) : Nat → List Item → Option Nat
  | _, [] => none
  | i, it :: rest => if it.id = nid then some i else findItemIndexByIdAux nid (i + 1) rest

/-- Entry point of the linear id search. -/
def findItemIndexById (allItems : List Item) (nid : Nat) : Option Nat :=
  findItemIndexByIdAux nid 0 allItems

/-- `getNavigationText` (toMarkdown.js 181-207): inline rendering of a
choice navigation. `navId` is the id of `choice.getGotoPage()`. -/
def getNavigationText (navType : NavType) (navId : Option Nat)
    (allItems : List Item) (sectionMap : List (Nat × SectionInfo)) : String :=
  if navType = .CONTINUE then ""
  else if navType = .SUBMIT then " → **Submit form**"
  else if navType = .GO_TO_PAGE then
    match navId with
    | some nid =>
      match findItemIndexById allItems nid with
      | some i =>
        match sectionMap.lookup i with
        | some sec =>
          " → **Go to section " ++ toString sec.number ++ " (" ++
            convertToMarkdown sec.title ++ ")**"
        | none => ""
      | none => ""
    | none => ""
  else ""

/-- `getDefaultSectionNavigation` (toMarkdown.js 113-143): section-summary
rendering of a page break's own navigation directive. -/
def getDefaultSectionNavigation (pageBreakItem : Item) (allItems : List Item)
    (sectionMap : List (Nat × SectionInfo)) : String :=
  if pageBreakItem.pageNavigationType = .CONTINUE then "Continue to next section"
  else if pageBreakItem.pageNavigationType = .SUBMIT then "**Submit form**"
  else if pageBreakItem.pageNavigationType = .GO_TO_PAGE then
    match pageBreakItem.goToPageId with
    | some nid =>
      match findItemIndexById allItems nid with
      | some i =>
        match sectionMap.lookup i with
        | some sec =>
          "**Go to section " ++ toString sec.number ++ " (" ++
            convertToMarkdown sec.title ++ ")**"
        | none => ""
      | none => ""
    | none => ""
  else ""

/-- `renderItemBodyMarkdown` (toMarkdown.js 219-303). `activeItems` is
the item list of `FormApp.getActiveForm()` (empty when that call
returns `null`). A `.error` models an uncaught JavaScript exception
(the unguarded `getChoices()` / `hasOtherOption()` calls). -/
def renderItemBodyMarkdown (item : Item) (type : ItemType)
    (activeItems : List Item) (sectionMap : List (Nat × SectionInfo)) :
    Except String (List String) :=
  match type with
  | .TEXT => .ok ["_Open text response_"]
  | .PARAGRAPH_TEXT => .ok ["_Long open text response_"]
  | .MULTIPLE_CHOICE => do
    let cs ← item.choices
    let hasOther ← match item.hasOther with
      | some r => r
      | none => .error ("TypeError: " ++ "hasOtherOption is not a function")
    .ok (["_Single choice_", ""] ++
      cs.map (fun choice =>
        "- " ++ convertToMarkdown choice.value ++
          getNavigationText choice.pageNavigationType choice.gotoPageId activeItems sectionMap) ++
      (if hasOther then ["- Other: _text response_"] else []))
  | .CHECKBOX => do
    let cs ← item.choices
    let hasOther ← match item.hasOther with
      | some r => r
      | none => .error ("TypeError: " ++ "hasOtherOption is not a function")
    .ok (["_Select all that apply_", ""] ++
      cs.map (fun choice => "- " ++ convertToMarkdown choice.value) ++
      (if hasOther then ["- Other: _text response_"] else []))
  | .LIST => do
    let cs ← item.choices
    .ok (["_Dropdown (single choice)_", ""] ++
      cs.map (fun choice =>
        "- " ++ convertToMarkdown choice.value ++
          getNavigationText choice.pageNavigationType choice.gotoPageId activeItems sectionMap))
  | .SCALE =>
    .ok ["Scale: " ++ toString item.lowerBound ++ " to " ++ toString item.upperBound ++
      (if item.leftLabel ≠ "" || item.rightLabel ≠ "" then
        " (" ++ convertToMarkdown item.leftLabel ++ " … " ++
          convertToMarkdown item.rightLabel ++ ")"
      else "")]
  | t => .ok ["_Item type: " ++ typeToString t ++ " (not specially formatted)_"]

/-- Mutable state of the `items.forEach` walk of `exportFormToMarkdown`
(toMarkdown.js 16-89). -/
structure MDState where
  lines : List String
  questionCounter : Nat
  sectionCounter : Nat
  currentSection : String
  currentPageBreakItem : Option Item
  deriving Repr

/-- Lines pushed before a new section opens (toMarkdown.js 42-49): the
trailing default-navigation annotation of the previously opened page
break, when one is open and its descriptor is non-empty. -/
def defaultNavLines (snapItems : List Item) (sectionMap : List (Nat × SectionInfo))
    (cur : Option Item) : List String :=
  match cur with
  | some pb =>
    let defaultNav := getDefaultSectionNavigation pb snapItems sectionMap
    if defaultNav ≠ "" then ["", "_Default: " ++ defaultNav ++ "_", ""] else []
  | none => []

/-- Lines pushed for a new section heading (toMarkdown.js 55-64):
nothing when the page break's title is empty. -/
def sectionHeading (sc : Nat) (item : Item) : List String :=
  if item.title ≠ "" then
    ["", "## Section " ++ toString sc ++ ": " ++ convertToMarkdown item.title] ++
      (if item.helpText ≠ "" then ["", convertToMarkdown item.helpText] else []) ++ [""]
  else []

/-- Lines pushed for a titled question (toMarkdown.js 77-88): heading
with the incremented counter, optional help text, blank line, body,
blank line. -/
def questionBlock (questionCounter : Nat) (item : Item) (body : List String) : List String :=
  ["### Q" ++ toString (questionCounter + 1) ++ ". " ++ convertToMarkdown item.title] ++
    (if item.helpText ≠ "" then ["", "_" ++ convertToMarkdown item.helpText ++ "_"] else []) ++
    [""] ++ body ++ [""]

/-- One iteration of the walk (toMarkdown.js 36-89). `activeItems` is
the active-form item list used for choice-navigation lookup,
`snapItems` the snapshot items used for default-navigation lookup. -/
def stepMD (activeItems snapItems : List Item) (sectionMap : List (Nat × SectionInfo))
    (st : MDState) (item : Item) : Except String MDState :=
  if item.type = .PAGE_BREAK then
    .ok { lines := st.lines ++ defaultNavLines snapItems sectionMap st.currentPageBreakItem ++
            sectionHeading (st.sectionCounter + 1) item
          questionCounter := st.questionCounter
          sectionCounter := st.sectionCounter + 1
          currentSection := item.title
          currentPageBreakItem := some item }
  else if item.title = "" then .ok st
  else
    match renderItemBodyMarkdown item item.type activeItems sectionMap with
    | .error e => .error e
    | .ok body =>
      .ok { st with
        questionCounter := st.questionCounter + 1
        lines := st.lines ++ questionBlock st.questionCounter item body }

/-- The `items.forEach` loop: left-to-right walk, an exception aborts. -/
def runItems (activeItems snapItems : List Item) (sectionMap : List (Nat × SectionInfo)) :
    MDState → List Item → Except String MDState
  | st, [] => .ok st
  | st, it :: rest =>
    match stepMD activeItems snapItems sectionMap st it with
    | .ok st' => runItems activeItems snapItems sectionMap st' rest
    | .error e => .error e

/-- `exportFormToMarkdown` up to the final `join` (toMarkdown.js
11-100): the `lines` array. `active` models `FormApp.getActiveForm()`. -/
def exportFormToMarkdownLines (active : Option Form) (form : Form)
    (optionalItems : Option (List Item)) : Except String (List String) :=
  let items := optionalItems.getD form.items
  let activeItems := (active.map Form.items).getD []
  let header :=
    ("# " ++ form.title) ::
      (if form.description ≠ "" then ["", convertToMarkdown form.description] else []) ++ [""]
  let sectionMap := buildSectionMap items
  match runItems activeItems items sectionMap
      { lines := header, questionCounter := 1, sectionCounter := 0,
        currentSection := "", currentPageBreakItem := none } items with
  | .error e => .error e
  | .ok st =>
    .ok (match st.currentPageBreakItem with
      | some pb =>
        let defaultNav := getDefaultSectionNavigation pb items sectionMap
        if defaultNav ≠ "" then st.lines ++ ["", "_Default: " ++ defaultNav ++ "_"]
        else st.lines
      | none => st.lines)

/-- `exportFormToMarkdown` (toMarkdown.js 11-101): `lines.join("\n")`. -/
def exportFormToMarkdown (active : Option Form) (form : Form)
    (optionalItems : Option (List Item)) : Except String String :=
  (exportFormToMarkdownLines active form optionalItems).map (String.intercalate "\n")

/-! ## Specification-side definitions (for refinement comparisons) -/

/-- Sequential numbering of an already-filtered list of (position,
page-break item) pairs, following the spec's words: assign the next
sequential integer starting after `n`, and synthesize "Section N" for an
empty title. -/
def sectionNumbering (n : Nat) : List (Nat × Item) → List (Nat × SectionInfo)
  | [] => []
  | (i, it) :: rest =>
    (i, { number := n + 1
          title := if it.title = "" then "Section " ++ toString (n + 1) else it.title }) ::
      sectionNumbering (n + 1) rest

/-- Specification-side section index: exactly the PageBreak-variant
items, taken with their sequence positions in order, numbered 1, 2, 3,
…; to be compared with the source-side `buildSectionMap`. -/
def specSectionIndex (items : List Item) : List (Nat × SectionInfo) :=
  sectionNumbering 0 (items.enum.filter (fun p => decide (p.2.type = .PAGE_BREAK)))

/-- A string free of tag-opening characters and line terminators: the
side condition under which one rich-text tag pair around it is converted
in isolation. -/
def TagFree (s : String) : Prop :=
  '<' ∉ s.toList ∧ ∀ c ∈ s.toList, isLineTerm c = false

/-- Count of titled non-PageBreak items: the questions the prose walk
numbers. -/
def countQuestions (items : List Item) : Nat :=
  items.countP (fun it => decide (it.type ≠ .PAGE_BREAK ∧ it.title ≠ ""))

/-- Count of PageBreak items: the sections the prose walk numbers. -/
def countPageBreaks (items : List Item) : Nat :=
  items.countP (fun it => decide (it.type = .PAGE_BREAK))

/-- The most recently seen PageBreak item of a list (`none` when the
list has no PageBreak): the value `currentPageBreakItem` holds after the
walk. -/
def lastPageBreak : List Item → Option Item
  | [] => none
  | it :: rest => (lastPageBreak rest).or (if it.type = .PAGE_BREAK then some it else none)

/-! ## Concrete sample data for witnesses and counterexamples -/

/-- A plain short-text item ("Name", id 3). -/
def sampleTextItem : Item :=
  { type := .TEXT
    title := "Name"
    helpText := ""
    id := 3
    index := 0
    required := some (.ok false)
    choices := .ok []
    hasOther := none
    lowerBound := 1
    upperBound := 5
    leftLabel := ""
    rightLabel := ""
    alignment := "LEFT"
    imageBlob := { dataAsString := "", name := "", isGoogleType := false }
    pageNavigationType := .CONTINUE
    goToPageId := none }

/-- PageBreak "Intro" (id 10) with the Continue directive. -/
def samplePB1 : Item :=
  { sampleTextItem with type := .PAGE_BREAK, title := "Intro", id := 10 }

/-- PageBreak "End" (id 11) with the Terminate directive. -/
def samplePB2 : Item :=
  { sampleTextItem with
      type := .PAGE_BREAK
      title := "End"
      id := 11
      index := 1
      pageNavigationType := .SUBMIT }

/-- A choice jumping to the page break with id 11. -/
def sampleJumpChoice : Choice :=
  { value := "A", pageNavigationType := .GO_TO_PAGE, gotoPageId := some 11 }

/-- A single-choice item whose only choice jumps to item 11. -/
def sampleChoiceItem : Item :=
  { sampleTextItem with
      type := .MULTIPLE_CHOICE
      title := "Pick"
      choices := .ok [sampleJumpChoice]
      hasOther := some (.ok false) }

/-- A dropdown item with the free-text escape option enabled. -/
def sampleListItem : Item :=
  { sampleTextItem with
      type := .LIST
      title := "Drop"
      choices := .ok [{ value := "A", pageNavigationType := .CONTINUE, gotoPageId := none }]
      hasOther := some (.ok true) }

/-- A choice item whose `getChoices()` call throws. -/
def sampleBadItem : Item :=
  { sampleTextItem with
      type := .MULTIPLE_CHOICE
      title := "Bad"
      id := 4
      choices := .error "boom"
      hasOther := none }

/-- A non-PageBreak item with an empty title (skipped by the walk). -/
def sampleUntitledItem : Item :=
  { sampleTextItem with title := "", id := 5 }

/-- An item of an unhandled type tag. -/
def sampleOtherItem : Item :=
  { sampleTextItem with type := .OTHER "DATE", title := "When" }

/-- One-question sample form. -/
def sampleForm : Form :=
  { title := "Survey"
    id := "f"
    description := ""
    publishedUrl := ""
    editors := []
    items := [sampleTextItem]
    confirmationMessage := ""
    customClosedFormMessage := "" }

/-- Two-section sample form. -/
def sampleForm2 : Form := { sampleForm with items := [samplePB1, samplePB2] }

/-- Sample form with a navigation-bearing choice item and a page break. -/
def sampleForm3 : Form := { sampleForm with items := [sampleChoiceItem, samplePB2] }

/-! ## Claim C1: structured export count consistency -/

/-- C1: for every snapshot, whether the structured exporter fetches the
items itself (`optionalItems = none`) or is invoked with the snapshot's
pre-fetched items, the top-level `count`, the metadata `count` and the
length of the emitted `items` list coincide. -/
theorem structured_export_triple_count (form : Form) (optionalItems : Option (List Item))
    (h : optionalItems = none ∨ optionalItems = some form.items) :
    (exportFormToJson form optionalItems).1.count
        = (exportFormToJson form optionalItems).1.metadata.count ∧
      (exportFormToJson form optionalItems).1.metadata.count
        = (exportFormToJson form optionalItems).1.items.length := by
  rcases h with h | h <;> subst h <;>
    simp [exportFormToJson, getFormMetadata]

/-- Witness for C1: the triple equality evaluated on a concrete form,
in the pre-fetched-items invocation. -/
theorem structured_export_triple_count_witness :
    (exportFormToJson sampleForm (some sampleForm.items)).1.count
        = (exportFormToJson sampleForm (some sampleForm.items)).1.metadata.count ∧
      (exportFormToJson sampleForm (some sampleForm.items)).1.metadata.count
        = (exportFormToJson sampleForm (some sampleForm.items)).1.items.length :=
  structured_export_triple_count sampleForm (some sampleForm.items) (Or.inr rfl)

/-! ## Claim C9: per-item choice-extraction failure is fail-soft -/

/-- C9: when choice retrieval of a choice-bearing item throws, the
normalized record carries the empty choice list, the condition goes to
the log side channel, and the structured export still processes every
item of the snapshot (it is a total function: no exception escapes). -/
theorem choice_failure_fail_soft :
    (∀ (item : Item) (msg : String),
        (item.type = .MULTIPLE_CHOICE ∨ item.type = .CHECKBOX ∨ item.type = .LIST) →
        item.choices = .error msg →
        (itemToObject item).1.choices = some [] ∧
          ("Error getting choices for item " ++ toString item.id ++ ": " ++ msg)
            ∈ (itemToObject item).2) ∧
      (∀ (form : Form) (optionalItems : Option (List Item)),
        (exportFormToJson form optionalItems).1.items.length
          = (optionalItems.getD form.items).length) ∧
      (∀ (form : Form) (pre post : List Item) (item : Item),
        (exportFormToJson form (some (pre ++ item :: post))).1.items
          = pre.map (fun it => (itemToObject it).1) ++
              (itemToObject item).1 :: post.map (fun it => (itemToObject it).1)) := by
  refine ⟨?_, ?_, ?_⟩
  · intro item msg htype hc
    rcases htype with h | h | h <;>
      simp [itemToObject, extractChoices, h, hc, typeToString]
  · intro form optionalItems
    simp [exportFormToJson]
  · intro form pre post item
    simp [exportFormToJson]

/-- Witness for C9: the fail-soft behavior evaluated on a concrete item
whose `getChoices()` throws `"boom"`, inside a concrete snapshot. -/
theorem choice_failure_fail_soft_witness :
    ((itemToObject sampleBadItem).1.choices = some [] ∧
        ("Error getting choices for item " ++ toString sampleBadItem.id ++ ": " ++ "boom")
          ∈ (itemToObject sampleBadItem).2) ∧
      (exportFormToJson sampleForm (some [sampleBadItem, sampleTextItem])).1.items.length
        = ((some [sampleBadItem, sampleTextItem]).getD sampleForm.items).length ∧
      (exportFormToJson sampleForm (some ([] ++ sampleBadItem :: [sampleTextItem]))).1.items
        = [].map (fun it => (itemToObject it).1) ++
            (itemToObject sampleBadItem).1 ::
              [sampleTextItem].map (fun it => (itemToObject it).1) :=
  ⟨choice_failure_fail_soft.1 sampleBadItem "boom" (Or.inl rfl) rfl,
    choice_failure_fail_soft.2.1 sampleForm (some [sampleBadItem, sampleTextItem]),
    choice_failure_fail_soft.2.2 sampleForm [] [sampleTextItem] sampleBadItem⟩

/-! ## Claim C10: unhandled variants degrade gracefully -/

/-- C10: an item whose type tag is none of the specially handled
variants yields a normalized record with only the common fields (every
variant-specific field absent, nothing logged), and the prose body
renderer emits the single fallback line naming the raw tag, without
failing. -/
theorem unhandled_variant_graceful (item : Item) (tag : String)
    (activeItems : List Item) (sectionMap : List (Nat × SectionInfo))
    (htype : item.type = .OTHER tag) (hvid : tag ≠ "VIDEO") :
    (itemToObject item).1 =
        { type := tag
          title := item.title
          helpText := item.helpText
          id := item.id
          index := item.index
          isRequired := itemIsRequired item
          points := 0
          choices := none
          hasOtherOption := none
          lowerBound := none
          upperBound := none
          leftLabel := none
          rightLabel := none
          alignment := none
          imageBlob := none
          pageNavigationType := none } ∧
      (itemToObject item).2 = [] ∧
      renderItemBodyMarkdown item item.type activeItems sectionMap
        = .ok ["_Item type: " ++ tag ++ " (not specially formatted)_"] := by
  refine ⟨?_, ?_, ?_⟩ <;>
    simp [itemToObject, renderItemBodyMarkdown, htype, typeToString, hvid]

/-- Witness for C10: the graceful degradation evaluated on a concrete
item of the unhandled tag "DATE". -/
theorem unhandled_variant_graceful_witness :
    (itemToObject sampleOtherItem).1 =
        { type := "DATE"
          title := sampleOtherItem.title
          helpText := sampleOtherItem.helpText
          id := sampleOtherItem.id
          index := sampleOtherItem.index
          isRequired := itemIsRequired sampleOtherItem
          points := 0
          choices := none
          hasOtherOption := none
          lowerBound := none
          upperBound := none
          leftLabel := none
          rightLabel := none
          alignment := none
          imageBlob := none
          pageNavigationType := none } ∧
      (itemToObject sampleOtherItem).2 = [] ∧
      renderItemBodyMarkdown sampleOtherItem sampleOtherItem.type [] []
        = .ok ["_Item type: " ++ "DATE" ++ " (not specially formatted)_"] :=
  unhandled_variant_graceful sampleOtherItem "DATE" [] [] rfl (by decide)

/-! ## Claim C5: JumpTo resolution and its silent fallbacks -/

/-- The linear id search finds nothing when no item carries the id. -/
theorem findItemIndexByIdAux_none {nid : Nat} {l : List Item} (i : Nat)
    (h : ∀ it ∈ l, it.id ≠ nid) : findItemIndexByIdAux nid i l = none := by
  induction l generalizing i with
  | nil => rfl
  | cons it rest ih =>
    have hne : it.id ≠ nid := h it (List.mem_cons_self it rest)
    simp only [findItemIndexByIdAux, hne, if_false]
    exact ih (i + 1) (fun x hx => h x (List.mem_cons_of_mem it hx))

/-- The linear id search returns the position of the first item whose id
matches. -/
theorem findItemIndexByIdAux_some {nid : Nat} {l : List Item} {k : Nat} {it : Item}
    (i : Nat) (hk : l.get? k = some it) (hid : it.id = nid)
    (hfirst : ∀ j < k, ∀ itj, l.get? j = some itj → itj.id ≠ nid) :
    findItemIndexByIdAux nid i l = some (i + k) := by
  induction l generalizing i k with
  | nil => simp at hk
  | cons hd rest ih =>
    cases k with
    | zero =>
      simp only [List.get?] at hk
      cases hk
      simp [findItemIndexByIdAux, hid]
    | succ k' =>
      have hne : hd.id ≠ nid := hfirst 0 (Nat.succ_pos k') hd rfl
      simp only [findItemIndexByIdAux, hne, if_false]
      have := ih (i + 1) (k := k') hk
        (fun j hj itj hj' => hfirst (j + 1) (Nat.succ_lt_succ hj) itj hj')
      rw [this]
      congr 1
      omega

/-- C5: resolution of a `JumpTo(targetId)` directive, in both call sites
(the inline choice renderer and the section-summary renderer).  When the
target id has a first occurrence at a position present in the section
map, the "go to section" descriptor is produced with the prose-converted
title; when the id occurs nowhere, or its position is absent from the
section map, the empty descriptor is returned (and both resolvers are
total functions, so nothing is thrown or reported). -/
theorem jump_target_resolution :
    (∀ (allItems : List Item) (sectionMap : List (Nat × SectionInfo))
        (nid k : Nat) (it : Item) (sec : SectionInfo) (pb : Item),
        allItems.get? k = some it → it.id = nid →
        (∀ j < k, ∀ itj, allItems.get? j = some itj → itj.id ≠ nid) →
        sectionMap.lookup k = some sec →
        getNavigationText .GO_TO_PAGE (some nid) allItems sectionMap
            = " → **Go to section " ++ toString sec.number ++ " (" ++
                convertToMarkdown sec.title ++ ")**" ∧
          (pb.pageNavigationType = .GO_TO_PAGE → pb.goToPageId = some nid →
            getDefaultSectionNavigation pb allItems sectionMap
              = "**Go to section " ++ toString sec.number ++ " (" ++
                  convertToMarkdown sec.title ++ ")**")) ∧
      (∀ (allItems : List Item) (sectionMap : List (Nat × SectionInfo)) (nid : Nat)
          (pb : Item),
        (∀ it ∈ allItems, it.id ≠ nid) →
        getNavigationText .GO_TO_PAGE (some nid) allItems sectionMap = "" ∧
          (pb.pageNavigationType = .GO_TO_PAGE → pb.goToPageId = some nid →
            getDefaultSectionNavigation pb allItems sectionMap = "")) ∧
      (∀ (allItems : List Item) (sectionMap : List (Nat × SectionInfo))
          (nid k : Nat) (it : Item) (pb : Item),
        allItems.get? k = some it → it.id = nid →
        (∀ j < k, ∀ itj, allItems.get? j = some itj → itj.id ≠ nid) →
        sectionMap.lookup k = none →
        getNavigationText .GO_TO_PAGE (some nid) allItems sectionMap = "" ∧
          (pb.pageNavigationType = .GO_TO_PAGE → pb.goToPageId = some nid →
            getDefaultSectionNavigation pb allItems sectionMap = "")) := by
  refine ⟨?_, ?_, ?_⟩
  · intro allItems sectionMap nid k it sec pb hk hid hfirst hsec
    have hfind : findItemIndexById allItems nid = some k := by
      simpa using findItemIndexByIdAux_some 0 hk hid hfirst
    constructor
    · simp [getNavigationText, findItemIndexById] at hfind ⊢
      simp [hfind, hsec]
    · intro hnav hgoto
      simp [getDefaultSectionNavigation, hnav, hgoto, hfind, hsec]
  · intro allItems sectionMap nid pb h
    have hfind : findItemIndexById allItems nid = none :=
      findItemIndexByIdAux_none 0 h
    constructor
    · simp [getNavigationText, hfind]
    · intro hnav hgoto
      simp [getDefaultSectionNavigation, hnav, hgoto, hfind]
  · intro allItems sectionMap nid k it pb hk hid hfirst hsec
    have hfind : findItemIndexById allItems nid = some k := by
      simpa using findItemIndexByIdAux_some 0 hk hid hfirst
    constructor
    · simp [getNavigationText, hfind, hsec]
    · intro hnav hgoto
      simp [getDefaultSectionNavigation, hnav, hgoto, hfind, hsec]

/-- Witness for C5: concrete resolutions — a resolvable jump (to the
page break with id 11, section 1 "End"), an unknown id (99), and an id
whose position is not in the section map (the id 3 of a text item). -/
theorem jump_target_resolution_witness :
    (getNavigationText .GO_TO_PAGE (some 11) [sampleChoiceItem, samplePB2]
          (buildSectionMap [sampleChoiceItem, samplePB2])
        = " → **Go to section " ++ toString (1 : Nat) ++ " (" ++
            convertToMarkdown "End" ++ ")**") ∧
      getNavigationText .GO_TO_PAGE (some 99) [sampleChoiceItem, samplePB2]
          (buildSectionMap [sampleChoiceItem, samplePB2]) = "" ∧
      getNavigationText .GO_TO_PAGE (some 3) [sampleChoiceItem, samplePB2]
          (buildSectionMap [sampleChoiceItem, samplePB2]) = "" :=
  ⟨(jump_target_resolution.1 [sampleChoiceItem, samplePB2]
        (buildSectionMap [sampleChoiceItem, samplePB2]) 11 1 samplePB2
        { number := 1, title := "End" } samplePB2 (by decide) (by decide)
        (by decide) (by decide)).1,
    (jump_target_resolution.2.1 [sampleChoiceItem, samplePB2]
        (buildSectionMap [sampleChoiceItem, samplePB2]) 99 samplePB2 (by decide)).1,
    (jump_target_resolution.2.2 [sampleChoiceItem, samplePB2]
        (buildSectionMap [sampleChoiceItem, samplePB2]) 3 0 sampleChoiceItem samplePB2
        (by decide) (by decide) (by decide) (by decide)).1⟩

/-! ## Claim C8: the section index -/

/-- The recursion of `buildSectionMap` agrees with numbering the
filtered enumeration of PageBreak items. -/
theorem buildSectionMapAux_eq (items : List Item) :
    ∀ idx sn, buildSectionMapAux idx sn items
      = sectionNumbering sn ((items.enumFrom idx).filter (fun p => decide (p.2.type = .PAGE_BREAK))) := by
  induction items with
  | nil => intro idx sn; rfl
  | cons it rest ih =>
    intro idx sn
    by_cases h : it.type = .PAGE_BREAK
    · simp [buildSectionMapAux, h, List.enumFrom, List.filter, sectionNumbering, ih]
    · simp [buildSectionMapAux, h, List.enumFrom, List.filter, ih]

/-- Numbers assigned by `sectionNumbering` are consecutive. -/
theorem sectionNumbering_numbers (l : List (Nat × Item)) :
    ∀ n, (sectionNumbering n l).map (fun p => p.2.number) = List.range' (n + 1) l.length := by
  induction l with
  | nil => intro n; rfl
  | cons p rest ih =>
    intro n
    simp [sectionNumbering, List.range'_succ, ih]

/-- Keys produced by `sectionNumbering` are the input positions. -/
theorem sectionNumbering_keys (l : List (Nat × Item)) :
    ∀ n, (sectionNumbering n l).map Prod.fst = l.map Prod.fst := by
  induction l with
  | nil => intro n; rfl
  | cons p rest ih => intro n; simp [sectionNumbering, ih]

/-- Filtering the enumeration and filtering the list give the same
number of survivors. -/
theorem length_filter_enumFrom (items : List Item) (p : Item → Bool) :
    ∀ i, ((items.enumFrom i).filter (fun q => p q.2)).length = (items.filter p).length := by
  induction items with
  | nil => intro i; rfl
  | cons it rest ih =>
    intro i
    by_cases h : p it <;>
      simp [List.enumFrom, List.filter, h, ih]

/-- C8: the section index is exactly the PageBreak-variant items taken
in sequence order: it equals the specification-side
`specSectionIndex` (filter the enumerated items to PageBreaks, number
them with titles defaulted to "Section N"), its numbers are 1, 2, …, k
with k the number of PageBreak items, and its keys are the positions of
the PageBreak items in order.  As a Lean function of the item sequence
it is deterministic and pure by construction. -/
theorem section_index_spec (items : List Item) :
    buildSectionMap items = specSectionIndex items ∧
      (buildSectionMap items).map (fun p => p.2.number)
        = List.range' 1 (items.filter (fun it => decide (it.type = .PAGE_BREAK))).length ∧
      (buildSectionMap items).map Prod.fst
        = (items.enum.filter (fun p => decide (p.2.type = .PAGE_BREAK))).map Prod.fst := by
  have h0 : buildSectionMap items = specSectionIndex items := by
    unfold buildSectionMap specSectionIndex List.enum
    exact buildSectionMapAux_eq items 0 0
  refine ⟨h0, ?_, ?_⟩
  · rw [h0]
    unfold specSectionIndex
    rw [sectionNumbering_numbers]
    congr 1
    unfold List.enum
    exact length_filter_enumFrom items (fun it => decide (it.type = .PAGE_BREAK)) 0
  · rw [h0]
    unfold specSectionIndex
    exact sectionNumbering_keys _ 0

/-! ## Claim C7: single-choice and dropdown body rendering -/

/-- Counterexample to C7 as stated: a dropdown (LIST) item whose
free-text escape option is enabled renders no extra "Other" line — the
LIST branch of `renderItemBodyMarkdown` never consults
`hasOtherOption`. -/
theorem dropdown_escape_line_missing :
    sampleListItem.hasOther = some (.ok true) ∧
      renderItemBodyMarkdown sampleListItem .LIST [] []
        = .ok ["_Dropdown (single choice)_", "", "- A"] ∧
      "- Other: _text response_" ∉ ["_Dropdown (single choice)_", "", "- A"] := by
  refine ⟨rfl, by decide, by decide⟩

/-- C7 (amended): a single-choice item renders its fixed label, one line
per choice (converted text plus the inline navigation annotation, which
is empty for `Continue`), and the extra "Other" line exactly when the
escape option is enabled; a dropdown item renders its fixed label and
the same per-choice lines but never an "Other" line. -/
theorem choice_body_rendering :
    (∀ (item : Item) (cs : List Choice) (b : Bool)
        (activeItems : List Item) (sectionMap : List (Nat × SectionInfo)),
        item.choices = .ok cs → item.hasOther = some (.ok b) →
        renderItemBodyMarkdown item .MULTIPLE_CHOICE activeItems sectionMap
          = .ok (["_Single choice_", ""] ++
              cs.map (fun c => "- " ++ convertToMarkdown c.value ++
                getNavigationText c.pageNavigationType c.gotoPageId activeItems sectionMap) ++
              (if b then ["- Other: _text response_"] else []))) ∧
      (∀ (item : Item) (cs : List Choice)
          (activeItems : List Item) (sectionMap : List (Nat × SectionInfo)),
        item.choices = .ok cs →
        renderItemBodyMarkdown item .LIST activeItems sectionMap
          = .ok (["_Dropdown (single choice)_", ""] ++
              cs.map (fun c => "- " ++ convertToMarkdown c.value ++
                getNavigationText c.pageNavigationType c.gotoPageId activeItems sectionMap))) ∧
      (∀ (navId : Option Nat) (activeItems : List Item)
          (sectionMap : List (Nat × SectionInfo)),
        getNavigationText .CONTINUE navId activeItems sectionMap = "") := by
  refine ⟨?_, ?_, ?_⟩
  · intro item cs b activeItems sectionMap hc hb
    simp only [renderItemBodyMarkdown, hc, hb]
    rfl
  · intro item cs activeItems sectionMap hc
    simp only [renderItemBodyMarkdown, hc]
    rfl
  · intro navId activeItems sectionMap
    simp [getNavigationText]

/-- Witness for C7 (amended): concrete renderings of a single-choice
item with a jump choice and of a dropdown item with the escape flag. -/
theorem choice_body_rendering_witness :
    renderItemBodyMarkdown sampleChoiceItem .MULTIPLE_CHOICE [] []
        = .ok (["_Single choice_", ""] ++
            [sampleJumpChoice].map (fun c => "- " ++ convertToMarkdown c.value ++
              getNavigationText c.pageNavigationType c.gotoPageId [] []) ++
            (if false then ["- Other: _text response_"] else [])) ∧
      renderItemBodyMarkdown sampleListItem .LIST [] []
        = .ok (["_Dropdown (single choice)_", ""] ++
            [({ value := "A", pageNavigationType := .CONTINUE, gotoPageId := none } :
                Choice)].map (fun c => "- " ++ convertToMarkdown c.value ++
              getNavigationText c.pageNavigationType c.gotoPageId [] [])) ∧
      getNavigationText .CONTINUE none [] [] = "" :=
  ⟨choice_body_rendering.1 sampleChoiceItem [sampleJumpChoice] false [] [] rfl rfl,
    choice_body_rendering.2.1 sampleListItem _ [] [] rfl,
    choice_body_rendering.2.2 none [] []⟩

/-! ## Claim C2: purity of the exporters in the snapshot -/

/-- Refutation input for C2: with the identical snapshot (same form
value, same pre-fetched items), the prose exporter produces different
bytes depending on what `FormApp.getActiveForm()` returns — the choice
navigation lookup inside `renderItemBodyMarkdown` re-fetches the active
form's items from the provider instead of using the given snapshot. -/
theorem prose_export_depends_on_provider_state :
    exportFormToMarkdown (some sampleForm3) sampleForm3 (some sampleForm3.items)
        ≠ exportFormToMarkdown none sampleForm3 (some sampleForm3.items) ∧
      (exportFormToMarkdown (some sampleForm3) sampleForm3 (some sampleForm3.items)).isOk
        = true ∧
      (exportFormToMarkdown none sampleForm3 (some sampleForm3.items)).isOk = true := by
  refine ⟨by decide, by decide, by decide⟩

/-! ## Walk lemmas for the prose exporter -/

/-- A PageBreak step: previous section's annotation, then the new
heading; section counter up, question counter untouched, the new page
break becomes current. -/
theorem stepMD_pageBreak {item : Item} (activeItems snapItems : List Item)
    (sectionMap : List (Nat × SectionInfo)) (st : MDState)
    (h : item.type = .PAGE_BREAK) :
    stepMD activeItems snapItems sectionMap st item
      = .ok { lines := st.lines ++ defaultNavLines snapItems sectionMap st.currentPageBreakItem ++
                sectionHeading (st.sectionCounter + 1) item
              questionCounter := st.questionCounter
              sectionCounter := st.sectionCounter + 1
              currentSection := item.title
              currentPageBreakItem := some item } := by
  simp [stepMD, h]

/-- An untitled non-PageBreak item is skipped: the state is returned
unchanged. -/
theorem stepMD_skip {item : Item} (activeItems snapItems : List Item)
    (sectionMap : List (Nat × SectionInfo)) (st : MDState)
    (h1 : item.type ≠ .PAGE_BREAK) (h2 : item.title = "") :
    stepMD activeItems snapItems sectionMap st item = .ok st := by
  simp [stepMD, h1, h2]

/-- A titled question step: question counter up by one, the question
block appended. -/
theorem stepMD_question {item : Item} {body : List String}
    (activeItems snapItems : List Item) (sectionMap : List (Nat × SectionInfo)) (st : MDState)
    (h1 : item.type ≠ .PAGE_BREAK) (h2 : item.title ≠ "")
    (h3 : renderItemBodyMarkdown item item.type activeItems sectionMap = .ok body) :
    stepMD activeItems snapItems sectionMap st item
      = .ok { st with
          questionCounter := st.questionCounter + 1
          lines := st.lines ++ questionBlock st.questionCounter item body } := by
  simp [stepMD, h1, h2, h3]

/-- The empty walk. -/
theorem runItems_nil (activeItems snapItems : List Item)
    (sectionMap : List (Nat × SectionInfo)) (st : MDState) :
    runItems activeItems snapItems sectionMap st [] = .ok st := rfl

/-- Unfolding a successful first step of the walk. -/
theorem runItems_cons_ok {st1 : MDState} {it : Item}
    (activeItems snapItems : List Item) (sectionMap : List (Nat × SectionInfo))
    (st : MDState) (rest : List Item)
    (h : stepMD activeItems snapItems sectionMap st it = .ok st1) :
    runItems activeItems snapItems sectionMap st (it :: rest)
      = runItems activeItems snapItems sectionMap st1 rest := by
  simp [runItems, h]

/-- The walk over a concatenation, given the first half succeeds. -/
theorem runItems_append_ok {st1 : MDState} {xs : List Item}
    (activeItems snapItems : List Item) (sectionMap : List (Nat × SectionInfo))
    (st : MDState) (ys : List Item)
    (h : runItems activeItems snapItems sectionMap st xs = .ok st1) :
    runItems activeItems snapItems sectionMap st (xs ++ ys)
      = runItems activeItems snapItems sectionMap st1 ys := by
  induction xs generalizing st with
  | nil => cases h; rfl
  | cons it rest ih =>
    cases hst : stepMD activeItems snapItems sectionMap st it with
    | error e => simp [runItems, hst] at h
    | ok st2 =>
      rw [List.cons_append, runItems_cons_ok _ _ _ _ _ hst]
      rw [runItems_cons_ok _ _ _ _ _ hst] at h
      exact ih _ h

/-- A successful walk over a concatenation splits at the seam. -/
theorem runItems_append_split {st' : MDState} {xs ys : List Item}
    (activeItems snapItems : List Item) (sectionMap : List (Nat × SectionInfo))
    (st : MDState)
    (h : runItems activeItems snapItems sectionMap st (xs ++ ys) = .ok st') :
    ∃ st1, runItems activeItems snapItems sectionMap st xs = .ok st1 ∧
      runItems activeItems snapItems sectionMap st1 ys = .ok st' := by
  induction xs generalizing st with
  | nil => exact ⟨st, rfl, h⟩
  | cons it rest ih =>
    cases hst : stepMD activeItems snapItems sectionMap st it with
    | error e => rw [List.cons_append] at h; simp [runItems, hst] at h
    | ok st2 =>
      rw [List.cons_append, runItems_cons_ok _ _ _ _ _ hst] at h
      obtain ⟨st1, h1, h2⟩ := ih _ h
      exact ⟨st1, by rw [runItems_cons_ok _ _ _ _ _ hst]; exact h1, h2⟩

/-- `lastPageBreak` over a concatenation. -/
theorem lastPageBreak_append (xs ys : List Item) :
    lastPageBreak (xs ++ ys) = (lastPageBreak ys).or (lastPageBreak xs) := by
  induction xs with
  | nil =>
    simp only [List.nil_append, lastPageBreak]
    cases lastPageBreak ys <;> rfl
  | cons x rest ih =>
    simp only [List.cons_append, lastPageBreak, List.append_eq, ih, Option.or_assoc]

/-- A list without PageBreak items has no last page break. -/
theorem lastPageBreak_eq_none {xs : List Item} (h : ∀ x ∈ xs, x.type ≠ .PAGE_BREAK) :
    lastPageBreak xs = none := by
  induction xs with
  | nil => rfl
  | cons x rest ih =>
    have hx : x.type ≠ .PAGE_BREAK := h x (List.mem_cons_self x rest)
    simp only [lastPageBreak, if_neg hx,
      ih (fun y hy => h y (List.mem_cons_of_mem x hy))]
    rfl

/-- Invariants of a successful walk: the question counter advances by
the number of titled non-PageBreak items, the section counter by the
number of PageBreak items, the current page break becomes the last
PageBreak seen, and lines are only appended. -/
theorem runItems_inv {st' : MDState} {xs : List Item}
    (activeItems snapItems : List Item) (sectionMap : List (Nat × SectionInfo))
    (st : MDState)
    (h : runItems activeItems snapItems sectionMap st xs = .ok st') :
    st'.questionCounter = st.questionCounter + countQuestions xs ∧
      st'.sectionCounter = st.sectionCounter + countPageBreaks xs ∧
      st'.currentPageBreakItem = (lastPageBreak xs).or st.currentPageBreakItem ∧
      ∃ suf, st'.lines = st.lines ++ suf := by
  induction xs generalizing st with
  | nil =>
    cases h
    exact ⟨by simp [countQuestions], by simp [countPageBreaks], rfl, ⟨[], by simp⟩⟩
  | cons it rest ih =>
    by_cases hpb : it.type = .PAGE_BREAK
    · rw [runItems_cons_ok _ _ _ _ _ (stepMD_pageBreak activeItems snapItems sectionMap st hpb)] at h
      obtain ⟨hq, hs, hc, suf, hl⟩ := ih _ h
      refine ⟨?_, ?_, ?_, ?_⟩
      · rw [hq]
        show st.questionCounter + countQuestions rest
          = st.questionCounter + countQuestions (it :: rest)
        simp [countQuestions, List.countP_cons, hpb]
      · rw [hs]
        show st.sectionCounter + 1 + countPageBreaks rest
          = st.sectionCounter + countPageBreaks (it :: rest)
        simp [countPageBreaks, List.countP_cons, hpb]
        omega
      · rw [hc]
        show (lastPageBreak rest).or (some it) = (lastPageBreak (it :: rest)).or st.currentPageBreakItem
        simp only [lastPageBreak, if_pos hpb]
        cases lastPageBreak rest <;> rfl
      · refine ⟨defaultNavLines snapItems sectionMap st.currentPageBreakItem ++
          (sectionHeading (st.sectionCounter + 1) it ++ suf), ?_⟩
        rw [hl]
        show st.lines ++ defaultNavLines snapItems sectionMap st.currentPageBreakItem ++
            sectionHeading (st.sectionCounter + 1) it ++ suf = _
        simp [List.append_assoc]
    · by_cases ht : it.title = ""
      · rw [runItems_cons_ok _ _ _ _ _ (stepMD_skip activeItems snapItems sectionMap st hpb ht)] at h
        obtain ⟨hq, hs, hc, suf, hl⟩ := ih _ h
        refine ⟨?_, ?_, ?_, ⟨suf, hl⟩⟩
        · rw [hq]; simp [countQuestions, List.countP_cons, ht]
        · rw [hs]; simp [countPageBreaks, List.countP_cons, hpb]
        · rw [hc]
          simp only [lastPageBreak, if_neg hpb]
          cases lastPageBreak rest <;> rfl
      · cases hr : renderItemBodyMarkdown it it.type activeItems sectionMap with
        | error e =>
          have hst : stepMD activeItems snapItems sectionMap st it = .error e := by
            simp [stepMD, hpb, ht, hr]
          simp [runItems, hst] at h
        | ok body =>
          rw [runItems_cons_ok _ _ _ _ _
            (stepMD_question activeItems snapItems sectionMap st hpb ht hr)] at h
          obtain ⟨hq, hs, hc, suf, hl⟩ := ih _ h
          refine ⟨?_, ?_, ?_, ?_⟩
          · rw [hq]
            show st.questionCounter + 1 + countQuestions rest
              = st.questionCounter + countQuestions (it :: rest)
            simp [countQuestions, List.countP_cons, hpb, ht]
            omega
          · rw [hs]
            show st.sectionCounter + countPageBreaks rest
              = st.sectionCounter + countPageBreaks (it :: rest)
            simp [countPageBreaks, List.countP_cons, hpb]
          · rw [hc]
            show (lastPageBreak rest).or st.currentPageBreakItem
              = (lastPageBreak (it :: rest)).or st.currentPageBreakItem
            simp only [lastPageBreak, if_neg hpb]
            cases lastPageBreak rest <;> rfl
          · refine ⟨questionBlock st.questionCounter it body ++ suf, ?_⟩
            rw [hl]
            show st.lines ++ questionBlock st.questionCounter it body ++ suf = _
            simp [List.append_assoc]

/-- Shape of a successful prose export: a successful walk from the
header state, whose lines the output extends; the extension is exactly
the final default-navigation annotation when a page break is open with a
non-empty descriptor. -/
theorem exportLines_shape {ls : List String} (active : Option Form) (form : Form)
    (items0 : List Item)
    (hexp : exportFormToMarkdownLines active form (some items0) = .ok ls) :
    ∃ stF, runItems ((active.map Form.items).getD []) items0 (buildSectionMap items0)
        { lines := ("# " ++ form.title) ::
            (if form.description ≠ "" then ["", convertToMarkdown form.description] else []) ++ [""]
          questionCounter := 1
          sectionCounter := 0
          currentSection := ""
          currentPageBreakItem := none } items0 = .ok stF ∧
      ∃ F, ls = stF.lines ++ F ∧
        ∀ pb, stF.currentPageBreakItem = some pb →
          getDefaultSectionNavigation pb items0 (buildSectionMap items0) ≠ "" →
          F = ["", "_Default: " ++
                getDefaultSectionNavigation pb items0 (buildSectionMap items0) ++ "_"] := by
  unfold exportFormToMarkdownLines at hexp
  simp only [Option.getD_some, Option.map_some'] at hexp
  cases hrun : runItems ((active.map Form.items).getD []) items0 (buildSectionMap items0)
      { lines := ("# " ++ form.title) ::
          (if form.description ≠ "" then ["", convertToMarkdown form.description] else []) ++ [""]
        questionCounter := 1
        sectionCounter := 0
        currentSection := ""
        currentPageBreakItem := none } items0 with
  | error e => rw [hrun] at hexp; cases hexp
  | ok stF =>
    rw [hrun] at hexp
    dsimp only at hexp
    refine ⟨stF, rfl, ?_⟩
    cases hcur : stF.currentPageBreakItem with
    | none =>
      rw [hcur] at hexp
      dsimp only at hexp
      cases hexp
      exact ⟨[], by simp, fun pb hpb => by cases hpb⟩
    | some pb0 =>
      rw [hcur] at hexp
      dsimp only at hexp
      by_cases hd : getDefaultSectionNavigation pb0 items0 (buildSectionMap items0) ≠ ""
      · rw [if_pos hd] at hexp
        cases hexp
        refine ⟨_, rfl, fun pb hpb _ => ?_⟩
        cases hpb
        rfl
      · rw [if_neg hd] at hexp
        cases hexp
        refine ⟨[], by simp, fun pb hpb hne => ?_⟩
        cases hpb
        exact absurd hne hd

/-! ## Claim C6: the question counter and empty-title skipping -/

/-- C6: an untitled non-PageBreak item is skipped entirely (no output,
no counter change); a titled non-PageBreak item advances the single
running question counter by one and is headed with the incremented
counter; over any successful walk the counter grows by exactly the
number of titled non-PageBreak items; and in a successful export, the
titled non-PageBreak item following a prefix `pre` is headed
`Q(countQuestions pre + 2)` — so the first question is Q2 and the n-th
titled question overall is Q(n+1), with no reset at section
boundaries. -/
theorem question_counter_spec :
    (∀ (activeItems snapItems : List Item) (sectionMap : List (Nat × SectionInfo))
        (st : MDState) (item : Item),
        item.type ≠ .PAGE_BREAK → item.title = "" →
        stepMD activeItems snapItems sectionMap st item = .ok st) ∧
      (∀ (activeItems snapItems : List Item) (sectionMap : List (Nat × SectionInfo))
          (st : MDState) (item : Item) (body : List String),
        item.type ≠ .PAGE_BREAK → item.title ≠ "" →
        renderItemBodyMarkdown item item.type activeItems sectionMap = .ok body →
        stepMD activeItems snapItems sectionMap st item
          = .ok { st with
              questionCounter := st.questionCounter + 1
              lines := st.lines ++ questionBlock st.questionCounter item body }) ∧
      (∀ (activeItems snapItems : List Item) (sectionMap : List (Nat × SectionInfo))
          (st st' : MDState) (xs : List Item),
        runItems activeItems snapItems sectionMap st xs = .ok st' →
        st'.questionCounter = st.questionCounter + countQuestions xs) ∧
      (∀ (active : Option Form) (form : Form) (pre post : List Item) (item : Item)
          (ls : List String),
        item.type ≠ .PAGE_BREAK → item.title ≠ "" →
        exportFormToMarkdownLines active form (some (pre ++ item :: post)) = .ok ls →
        ("### Q" ++ toString (countQuestions pre + 2) ++ ". " ++ convertToMarkdown item.title)
          ∈ ls) := by
  refine ⟨fun ai si smap st item h1 h2 => stepMD_skip ai si smap st h1 h2,
    fun ai si smap st item body h1 h2 h3 => stepMD_question ai si smap st h1 h2 h3,
    fun ai si smap st st' xs h => (runItems_inv ai si smap st h).1, ?_⟩
  intro active form pre post item ls h1 h2 hexp
  obtain ⟨stF, hrun, F, hls, -⟩ := exportLines_shape active form (pre ++ item :: post) hexp
  obtain ⟨st1, hpre, hrest⟩ := runItems_append_split _ _ _ _ hrun
  have hq1 : st1.questionCounter = 1 + countQuestions pre := by
    simpa using (runItems_inv _ _ _ _ hpre).1
  cases hr : renderItemBodyMarkdown item item.type ((active.map Form.items).getD [])
      (buildSectionMap (pre ++ item :: post)) with
  | error e =>
    have hst : stepMD ((active.map Form.items).getD []) (pre ++ item :: post)
        (buildSectionMap (pre ++ item :: post)) st1 item = .error e := by
      simp [stepMD, h1, h2, hr]
    simp [runItems, hst] at hrest
  | ok body =>
    have hst := stepMD_question ((active.map Form.items).getD []) (pre ++ item :: post)
      (buildSectionMap (pre ++ item :: post)) st1 h1 h2 hr
    rw [runItems_cons_ok _ _ _ _ _ hst] at hrest
    obtain ⟨-, -, -, suf, hsf⟩ := runItems_inv _ _ _ _ hrest
    have hhead : ("### Q" ++ toString (countQuestions pre + 2) ++ ". " ++
        convertToMarkdown item.title) ∈ questionBlock st1.questionCounter item body := by
      have : st1.questionCounter + 1 = countQuestions pre + 2 := by omega
      simp [questionBlock, this]
    rw [hls, hsf]
    show _ ∈ ({ st1 with
        questionCounter := st1.questionCounter + 1
        lines := st1.lines ++ questionBlock st1.questionCounter item body }.lines ++ suf) ++ F
    refine List.mem_append_left _ (List.mem_append_left _ ?_)
    exact List.mem_append_right _ hhead

/-- Witness for C6: the skip of a concrete untitled item, the counter
step of a concrete titled item, the counter total of a concrete walk,
and the concrete "### Q2. Name" heading of the one-question sample
export (counter starts at 2). -/
theorem question_counter_spec_witness :
    stepMD [] [] []
        { lines := []
          questionCounter := 1
          sectionCounter := 0
          currentSection := ""
          currentPageBreakItem := none } sampleUntitledItem
      = .ok { lines := []
              questionCounter := 1
              sectionCounter := 0
              currentSection := ""
              currentPageBreakItem := none } ∧
      stepMD [] [] []
          { lines := []
            questionCounter := 1
            sectionCounter := 0
            currentSection := ""
            currentPageBreakItem := none } sampleTextItem
        = .ok { lines := ([] ++ questionBlock 1 sampleTextItem ["_Open text response_"])
                questionCounter := 2
                sectionCounter := 0
                currentSection := ""
                currentPageBreakItem := none } ∧
      (("### Q" ++ toString (countQuestions [] + 2) ++ ". " ++ convertToMarkdown
          sampleTextItem.title)
        ∈ ["# Survey", "", "### Q2. Name", "", "_Open text response_", ""]) :=
  ⟨question_counter_spec.1 [] [] [] _ sampleUntitledItem (by decide) rfl,
    question_counter_spec.2.1 [] [] [] _ sampleTextItem ["_Open text response_"]
      (by decide) (by decide) (by decide),
    question_counter_spec.2.2.2 none sampleForm [] [] sampleTextItem
      ["# Survey", "", "### Q2. Name", "", "_Open text response_", ""]
      (by decide) (by decide) (by decide)⟩

/-! ## Claim C4: default section navigation annotations -/

/-- C4: the section-summary resolver renders `Continue` as the explicit
phrase and `Terminate` as the submit descriptor; when a new PageBreak is
encountered while a previous PageBreak section is open, the previous
section's own directive is resolved in section-summary mode and emitted
as a trailing `_Default: ..._` annotation right before the new section's
heading; and after the walk, the still-open last section's descriptor is
emitted the same way, so the last section's default behavior is never
omitted. -/
theorem default_navigation_annotations :
    (∀ (pb : Item) (allItems : List Item) (sectionMap : List (Nat × SectionInfo)),
        pb.pageNavigationType = .CONTINUE →
        getDefaultSectionNavigation pb allItems sectionMap = "Continue to next section") ∧
      (∀ (pb : Item) (allItems : List Item) (sectionMap : List (Nat × SectionInfo)),
        pb.pageNavigationType = .SUBMIT →
        getDefaultSectionNavigation pb allItems sectionMap = "**Submit form**") ∧
      (∀ (active : Option Form) (form : Form) (pre mid post : List Item)
          (pb1 pb2 : Item) (ls : List String),
        pb1.type = .PAGE_BREAK → pb2.type = .PAGE_BREAK →
        (∀ x ∈ mid, x.type ≠ .PAGE_BREAK) →
        exportFormToMarkdownLines active form
            (some ((pre ++ pb1 :: mid) ++ pb2 :: post)) = .ok ls →
        getDefaultSectionNavigation pb1 ((pre ++ pb1 :: mid) ++ pb2 :: post)
            (buildSectionMap ((pre ++ pb1 :: mid) ++ pb2 :: post)) ≠ "" →
        ∃ A B, ls = A ++
            ["", "_Default: " ++
                getDefaultSectionNavigation pb1 ((pre ++ pb1 :: mid) ++ pb2 :: post)
                  (buildSectionMap ((pre ++ pb1 :: mid) ++ pb2 :: post)) ++ "_", ""] ++
            sectionHeading (countPageBreaks pre + 2) pb2 ++ B) ∧
      (∀ (active : Option Form) (form : Form) (pre post : List Item) (pb : Item)
          (ls : List String),
        pb.type = .PAGE_BREAK → (∀ x ∈ post, x.type ≠ .PAGE_BREAK) →
        exportFormToMarkdownLines active form (some (pre ++ pb :: post)) = .ok ls →
        getDefaultSectionNavigation pb (pre ++ pb :: post)
            (buildSectionMap (pre ++ pb :: post)) ≠ "" →
        ∃ A, ls = A ++
            ["", "_Default: " ++
                getDefaultSectionNavigation pb (pre ++ pb :: post)
                  (buildSectionMap (pre ++ pb :: post)) ++ "_"]) := by
  refine ⟨?_, ?_, ?_, ?_⟩
  · intro pb allItems sectionMap h
    simp [getDefaultSectionNavigation, h]
  · intro pb allItems sectionMap h
    simp [getDefaultSectionNavigation, h]
  · intro active form pre mid post pb1 pb2 ls h1 h2 hmid hexp hd
    obtain ⟨stF, hrun, F, hls, -⟩ :=
      exportLines_shape active form ((pre ++ pb1 :: mid) ++ pb2 :: post) hexp
    obtain ⟨st1, hpre, hrest⟩ := runItems_append_split _ _ _ _ hrun
    obtain ⟨-, hsc1, hc1, -⟩ := runItems_inv _ _ _ _ hpre
    have hcur1 : st1.currentPageBreakItem = some pb1 := by
      rw [hc1]
      show (lastPageBreak (pre ++ pb1 :: mid)).or none = some pb1
      rw [lastPageBreak_append]
      simp only [lastPageBreak]
      rw [lastPageBreak_eq_none hmid, if_pos h1]
      cases lastPageBreak pre <;> rfl
    have hsec1 : st1.sectionCounter = countPageBreaks pre + 1 := by
      rw [hsc1]
      show 0 + (pre ++ pb1 :: mid).countP _ = _
      rw [List.countP_append, List.countP_cons]
      have hmid0 : mid.countP (fun it => decide (it.type = .PAGE_BREAK)) = 0 :=
        List.countP_eq_zero.mpr (by simpa using hmid)
      simp only [countPageBreaks] at hmid0 ⊢
      simp [hmid0, h1]
    have hst := stepMD_pageBreak ((active.map Form.items).getD [])
      ((pre ++ pb1 :: mid) ++ pb2 :: post)
      (buildSectionMap ((pre ++ pb1 :: mid) ++ pb2 :: post)) st1 h2
    rw [runItems_cons_ok _ _ _ _ _ hst] at hrest
    obtain ⟨-, -, -, suf, hsf⟩ := runItems_inv _ _ _ _ hrest
    refine ⟨st1.lines, suf ++ F, ?_⟩
    rw [hls, hsf]
    show (st1.lines ++ defaultNavLines _ _ st1.currentPageBreakItem ++
        sectionHeading (st1.sectionCounter + 1) pb2 ++ suf) ++ F = _
    rw [hcur1, hsec1]
    have hann : defaultNavLines ((pre ++ pb1 :: mid) ++ pb2 :: post)
        (buildSectionMap ((pre ++ pb1 :: mid) ++ pb2 :: post)) (some pb1)
        = ["", "_Default: " ++
            getDefaultSectionNavigation pb1 ((pre ++ pb1 :: mid) ++ pb2 :: post)
              (buildSectionMap ((pre ++ pb1 :: mid) ++ pb2 :: post)) ++ "_", ""] := by
      have hd2 := hd
      simp only [List.cons_append, List.append_assoc] at hd2
      simp [defaultNavLines, hd, hd2]
    rw [hann]
    simp [List.append_assoc]
  · intro active form pre post pb ls h1 hpost hexp hd
    obtain ⟨stF, hrun, F, hls, hF⟩ :=
      exportLines_shape active form (pre ++ pb :: post) hexp
    obtain ⟨-, -, hcF, -⟩ := runItems_inv _ _ _ _ hrun
    have hcur : stF.currentPageBreakItem = some pb := by
      rw [hcF, lastPageBreak_append]
      show ((lastPageBreak (pb :: post)).or (lastPageBreak pre)).or none = _
      rw [show lastPageBreak (pb :: post)
          = (lastPageBreak post).or (if pb.type = .PAGE_BREAK then some pb else none) from rfl,
        lastPageBreak_eq_none hpost, if_pos h1]
      cases lastPageBreak pre <;> rfl
    rw [hls, hF pb hcur hd]
    exact ⟨stF.lines, rfl⟩

/-- Witness for C4: on the two-section sample form, the concrete
resolved phrases, the in-loop annotation emitted between the two section
headings, and the final `_Default: **Submit form**_` annotation of the
still-open last section. -/
theorem default_navigation_annotations_witness :
    getDefaultSectionNavigation samplePB1 [] [] = "Continue to next section" ∧
      getDefaultSectionNavigation samplePB2 [] [] = "**Submit form**" ∧
      (∃ A B, ["# Survey", "", "", "## Section 1: Intro", "",
          "", "_Default: Continue to next section_", "",
          "", "## Section 2: End", "", "", "_Default: **Submit form**_"] = A ++
          ["", "_Default: " ++
              getDefaultSectionNavigation samplePB1 (([] ++ samplePB1 :: []) ++ samplePB2 :: [])
                (buildSectionMap (([] ++ samplePB1 :: []) ++ samplePB2 :: [])) ++ "_", ""] ++
          sectionHeading (countPageBreaks [] + 2) samplePB2 ++ B) ∧
      (∃ A, ["# Survey", "", "", "## Section 1: Intro", "",
          "", "_Default: Continue to next section_", "",
          "", "## Section 2: End", "", "", "_Default: **Submit form**_"] = A ++
          ["", "_Default: " ++
              getDefaultSectionNavigation samplePB2 ([samplePB1] ++ samplePB2 :: [])
                (buildSectionMap ([samplePB1] ++ samplePB2 :: [])) ++ "_"]) :=
  ⟨default_navigation_annotations.1 samplePB1 [] [] rfl,
    default_navigation_annotations.2.1 samplePB2 [] [] rfl,
    default_navigation_annotations.2.2.1 none sampleForm2 [] [] [] samplePB1 samplePB2
      ["# Survey", "", "", "## Section 1: Intro", "",
        "", "_Default: Continue to next section_", "",
        "", "## Section 2: End", "", "", "_Default: **Submit form**_"]
      rfl rfl (by simp) (by decide) (by decide),
    default_navigation_annotations.2.2.2 none sampleForm2 [samplePB1] [] samplePB2
      ["# Survey", "", "", "## Section 1: Intro", "",
        "", "_Default: Continue to next section_", "",
        "", "## Section 2: End", "", "", "_Default: **Submit form**_"]
      rfl (by simp) (by decide) (by decide)⟩

/-! ## Scanner lemmas for the rich-text converter -/

/-- Fuel does not matter on the empty string. -/
theorem substTagsF_nil (o : Char) (orest cl : List Char) (w : List Char → List Char) :
    ∀ f, substTagsF o orest cl w f [] = [] := by
  intro f; cases f <;> rfl

/-- A position where the opening literal does not match is copied. -/
theorem substTags_skip {o c : Char} {orest rest : List Char} (cl : List Char)
    (w : List Char → List Char)
    (h : (o :: orest).isPrefixOf (c :: rest) = false) :
    substTags o orest cl w (c :: rest) = c :: substTags o orest cl w rest := by
  unfold substTags
  simp [substTagsF, h]

/-- A position whose head differs from the opening literal's head is
copied. -/
theorem substTags_skip_ne {o c : Char} (orest cl : List Char) (w : List Char → List Char)
    (rest : List Char) (h : o ≠ c) :
    substTags o orest cl w (c :: rest) = c :: substTags o orest cl w rest :=
  substTags_skip cl w (by simp [List.isPrefixOf, h])

/-- A block without the opening literal's head character is copied. -/
theorem substTags_walk (o : Char) (orest cl : List Char) (w : List Char → List Char) :
    ∀ (x rest : List Char), o ∉ x →
      substTags o orest cl w (x ++ rest) = x ++ substTags o orest cl w rest := by
  intro x
  induction x with
  | nil => intro rest h; simp
  | cons a x' ih =>
    intro rest h
    have ha : o ≠ a := fun e => h (e ▸ List.mem_cons_self a x')
    rw [List.cons_append, substTags_skip_ne orest cl w _ ha,
      ih rest (fun hm => h (List.mem_cons_of_mem a hm))]
    rfl

/-- A whole string without the opening literal's head character is
returned unchanged. -/
theorem substTags_no_op (o : Char) (orest cl : List Char) (w : List Char → List Char)
    (s : List Char) (h : o ∉ s) : substTags o orest cl w s = s := by
  have h1 := substTags_walk o orest cl w s [] h
  have h0 : substTags o orest cl w [] = [] := rfl
  rw [h0] at h1
  simpa using h1

/-- A position where the opening literal matches and the lazy close
consumes the whole remainder is replaced. -/
theorem substTags_hit {o c : Char} {orest cl content rest : List Char}
    (w : List Char → List Char)
    (hpre : (o :: orest).isPrefixOf (c :: rest) = true)
    (hfind : findLazyClose cl ((c :: rest).drop (o :: orest).length) = some (content, [])) :
    substTags o orest cl w (c :: rest) = w content := by
  unfold substTags
  simp only [List.length_cons, List.drop_succ_cons] at hfind
  simp [substTagsF, hpre, hfind, substTagsF_nil]

/-- The lazy close search over a literal-free, terminator-free block
followed by the closing literal. -/
theorem findLazyClose_boundary (q : Char) (ql : List Char) :
    ∀ (x r : List Char), q ∉ x → (∀ c ∈ x, isLineTerm c = false) →
      findLazyClose (q :: ql) (x ++ (q :: ql) ++ r) = some (x, r) := by
  intro x
  induction x with
  | nil =>
    intro r h1 h2
    show findLazyClose (q :: ql) (q :: (ql ++ r)) = some ([], r)
    simp only [findLazyClose]
    rw [if_pos (show (q :: ql).isPrefixOf (q :: (ql ++ r)) = true from
      List.isPrefixOf_iff_prefix.mpr (List.prefix_append (q :: ql) r))]
    simp [List.drop_left]
  | cons a x' ih =>
    intro r h1 h2
    have ha : q ≠ a := fun e => h1 (e ▸ List.mem_cons_self a x')
    have hrec := ih r (fun hm => h1 (List.mem_cons_of_mem a hm))
      (fun c hc => h2 c (List.mem_cons_of_mem a hc))
    show findLazyClose (q :: ql) (a :: (x' ++ (q :: ql) ++ r)) = some (a :: x', r)
    simp only [findLazyClose]
    rw [if_neg (by simp [List.isPrefixOf, ha]),
      if_neg (by simp [h2 a (List.mem_cons_self a x')]), hrec]

/-- Fuel does not matter on the empty string. -/
theorem substAnchorF_nil : ∀ f, substAnchorF f [] = [] := by
  intro f; cases f <;> rfl

/-- A position where the anchor opening does not match is copied. -/
theorem substAnchor_skip {c : Char} {rest : List Char}
    (h : (['<', 'a', ' ', 'h', 'r', 'e', 'f', '=', '"']).isPrefixOf (c :: rest) = false) :
    substAnchor (c :: rest) = c :: substAnchor rest := by
  unfold substAnchor
  simp [substAnchorF, h]

/-- A position whose head is not `<` is copied. -/
theorem substAnchor_skip_ne {c : Char} (rest : List Char) (h : c ≠ '<') :
    substAnchor (c :: rest) = c :: substAnchor rest :=
  substAnchor_skip (by simp [List.isPrefixOf, Ne.symm h])

/-- A block without `<` is copied. -/
theorem substAnchor_walk : ∀ (x rest : List Char), '<' ∉ x →
    substAnchor (x ++ rest) = x ++ substAnchor rest := by
  intro x
  induction x with
  | nil => intro rest h; simp
  | cons a x' ih =>
    intro rest h
    have ha : a ≠ '<' := fun e => h (e ▸ List.mem_cons_self a x')
    rw [List.cons_append, substAnchor_skip_ne _ ha,
      ih rest (fun hm => h (List.mem_cons_of_mem a hm))]
    rfl

/-- A whole string without `<` is returned unchanged. -/
theorem substAnchor_no_op (s : List Char) (h : '<' ∉ s) : substAnchor s = s := by
  have h1 := substAnchor_walk s [] h
  have h0 : substAnchor [] = [] := rfl
  rw [h0] at h1
  simpa using h1

/-- A matching anchor whose two lazy groups consume the whole remainder
is replaced by the hyperlink form. -/
theorem substAnchor_hit {c : Char} {rest href rest1 txt : List Char}
    (hpre : (['<', 'a', ' ', 'h', 'r', 'e', 'f', '=', '"']).isPrefixOf (c :: rest) = true)
    (hf1 : findLazyClose ['"', '>'] ((c :: rest).drop 9) = some (href, rest1))
    (hf2 : findLazyClose ['<', '/', 'a', '>'] rest1 = some (txt, [])) :
    substAnchor (c :: rest) = '[' :: txt ++ ']' :: '(' :: href ++ [')'] := by
  unfold substAnchor
  simp only [List.drop_succ_cons] at hf1
  simp [substAnchorF, hpre, hf1, hf2, substAnchorF_nil]

/-- Fuel does not matter on the empty string. -/
theorem replaceLitF_nil (p : Char) (prest repl : List Char) :
    ∀ f, replaceLitF p prest repl f [] = [] := by
  intro f; cases f <;> rfl

/-- A position where the literal does not match is copied. -/
theorem replaceLit_skip {p c : Char} {prest rest : List Char} (repl : List Char)
    (h : (p :: prest).isPrefixOf (c :: rest) = false) :
    replaceLit p prest repl (c :: rest) = c :: replaceLit p prest repl rest := by
  unfold replaceLit
  simp [replaceLitF, h]

/-- A position whose head differs from the literal's head is copied. -/
theorem replaceLit_skip_ne {p c : Char} (prest repl : List Char) (rest : List Char)
    (h : p ≠ c) :
    replaceLit p prest repl (c :: rest) = c :: replaceLit p prest repl rest :=
  replaceLit_skip repl (by simp [List.isPrefixOf, h])

/-- A block without the literal's head character is copied. -/
theorem replaceLit_walk (p : Char) (prest repl : List Char) :
    ∀ (x rest : List Char), p ∉ x →
      replaceLit p prest repl (x ++ rest) = x ++ replaceLit p prest repl rest := by
  intro x
  induction x with
  | nil => intro rest h; simp
  | cons a x' ih =>
    intro rest h
    have ha : p ≠ a := fun e => h (e ▸ List.mem_cons_self a x')
    rw [List.cons_append, replaceLit_skip_ne prest repl _ ha,
      ih rest (fun hm => h (List.mem_cons_of_mem a hm))]
    rfl

/-- A whole string without the literal's head character is returned
unchanged. -/
theorem replaceLit_no_op (p : Char) (prest repl : List Char) (s : List Char) (h : p ∉ s) :
    replaceLit p prest repl s = s := by
  have h1 := replaceLit_walk p prest repl s [] h
  have h0 : replaceLit p prest repl [] = [] := rfl
  rw [h0] at h1
  simpa using h1

/-- Membership split over a three-part concatenation. -/
theorem not_mem_three {c : Char} {pre xs post : List Char}
    (hpre : c ∉ pre) (h : c ∉ xs) (hpost : c ∉ post) : c ∉ pre ++ (xs ++ post) := by
  simp [List.mem_append, hpre, h, hpost]

/-- A `substTags` pass whose opening literal matches neither the opening
nor the closing tag of a wrapped tag pair leaves the pair unchanged. -/
theorem substTags_keeps_tagpair (orest cl : List Char) (w : List Char → List Char)
    (a : Char) (xs : List Char) (h1 : '<' ∉ xs) (ha : a ≠ '<')
    (hn1 : ('<' :: orest).isPrefixOf ('<' :: a :: '>' :: (xs ++ ['<', '/', a, '>'])) = false)
    (hn2 : ('<' :: orest).isPrefixOf ('<' :: '/' :: a :: '>' :: ([] : List Char)) = false) :
    substTags '<' orest cl w ('<' :: a :: '>' :: (xs ++ ['<', '/', a, '>'])) =
      '<' :: a :: '>' :: (xs ++ ['<', '/', a, '>']) := by
  rw [substTags_skip cl w hn1,
    substTags_skip_ne orest cl w _ (Ne.symm ha),
    substTags_skip_ne orest cl w _ (by decide : '<' ≠ '>'),
    substTags_walk '<' orest cl w xs _ h1,
    substTags_skip cl w hn2,
    substTags_skip_ne orest cl w _ (by decide : '<' ≠ '/'),
    substTags_skip_ne orest cl w _ (Ne.symm ha),
    substTags_skip_ne orest cl w _ (by decide : '<' ≠ '>')]
  rfl

/-- A `substTags` pass whose opening literal matches neither the anchor
opening nor the anchor closing leaves an anchor element unchanged. -/
theorem substTags_keeps_anchor (orest cl : List Char) (w : List Char → List Char)
    (hs ts : List Char) (h1 : '<' ∉ hs) (h2 : '<' ∉ ts)
    (hn1 : ('<' :: orest).isPrefixOf
      ('<' :: 'a' :: ' ' :: 'h' :: 'r' :: 'e' :: 'f' :: '=' :: '"' ::
        (hs ++ '"' :: '>' :: (ts ++ ['<', '/', 'a', '>']))) = false)
    (hn2 : ('<' :: orest).isPrefixOf ('<' :: '/' :: 'a' :: '>' :: ([] : List Char)) = false) :
    substTags '<' orest cl w
        ('<' :: 'a' :: ' ' :: 'h' :: 'r' :: 'e' :: 'f' :: '=' :: '"' ::
          (hs ++ '"' :: '>' :: (ts ++ ['<', '/', 'a', '>']))) =
      '<' :: 'a' :: ' ' :: 'h' :: 'r' :: 'e' :: 'f' :: '=' :: '"' ::
        (hs ++ '"' :: '>' :: (ts ++ ['<', '/', 'a', '>'])) := by
  rw [substTags_skip cl w hn1,
    substTags_skip_ne orest cl w _ (by decide : '<' ≠ 'a'),
    substTags_skip_ne orest cl w _ (by decide : '<' ≠ ' '),
    substTags_skip_ne orest cl w _ (by decide : '<' ≠ 'h'),
    substTags_skip_ne orest cl w _ (by decide : '<' ≠ 'r'),
    substTags_skip_ne orest cl w _ (by decide : '<' ≠ 'e'),
    substTags_skip_ne orest cl w _ (by decide : '<' ≠ 'f'),
    substTags_skip_ne orest cl w _ (by decide : '<' ≠ '='),
    substTags_skip_ne orest cl w _ (by decide : '<' ≠ '"'),
    substTags_walk '<' orest cl w hs _ h1,
    substTags_skip_ne orest cl w _ (by decide : '<' ≠ '"'),
    substTags_skip_ne orest cl w _ (by decide : '<' ≠ '>'),
    substTags_walk '<' orest cl w ts _ h2,
    substTags_skip cl w hn2,
    substTags_skip_ne orest cl w _ (by decide : '<' ≠ '/'),
    substTags_skip_ne orest cl w _ (by decide : '<' ≠ 'a'),
    substTags_skip_ne orest cl w _ (by decide : '<' ≠ '>')]
  rfl

/-- The anchor pass leaves a non-anchor tag pair unchanged. -/
theorem substAnchor_keeps_tagpair (a : Char) (xs : List Char) (h1 : '<' ∉ xs) (ha : a ≠ '<')
    (hn1 : (['<', 'a', ' ', 'h', 'r', 'e', 'f', '=', '"']).isPrefixOf
      ('<' :: a :: '>' :: (xs ++ ['<', '/', a, '>'])) = false)
    (hn2 : (['<', 'a', ' ', 'h', 'r', 'e', 'f', '=', '"']).isPrefixOf
      ('<' :: '/' :: a :: '>' :: ([] : List Char)) = false) :
    substAnchor ('<' :: a :: '>' :: (xs ++ ['<', '/', a, '>'])) =
      '<' :: a :: '>' :: (xs ++ ['<', '/', a, '>']) := by
  rw [substAnchor_skip hn1,
    substAnchor_skip_ne _ ha,
    substAnchor_skip_ne _ (by decide : '>' ≠ '<'),
    substAnchor_walk xs _ h1,
    substAnchor_skip hn2,
    substAnchor_skip_ne _ (by decide : '/' ≠ '<'),
    substAnchor_skip_ne _ ha,
    substAnchor_skip_ne _ (by decide : '>' ≠ '<')]
  rfl

/-- A literal-replacement pass whose literal matches neither tag of a
wrapped tag pair leaves the pair unchanged. -/
theorem replaceLit_keeps_tagpair (prest repl : List Char) (a : Char) (xs : List Char)
    (h1 : '<' ∉ xs) (ha : a ≠ '<')
    (hn1 : ('<' :: prest).isPrefixOf ('<' :: a :: '>' :: (xs ++ ['<', '/', a, '>'])) = false)
    (hn2 : ('<' :: prest).isPrefixOf ('<' :: '/' :: a :: '>' :: ([] : List Char)) = false) :
    replaceLit '<' prest repl ('<' :: a :: '>' :: (xs ++ ['<', '/', a, '>'])) =
      '<' :: a :: '>' :: (xs ++ ['<', '/', a, '>']) := by
  rw [replaceLit_skip repl hn1,
    replaceLit_skip_ne prest repl _ (Ne.symm ha),
    replaceLit_skip_ne prest repl _ (by decide : '<' ≠ '>'),
    replaceLit_walk '<' prest repl xs _ h1,
    replaceLit_skip repl hn2,
    replaceLit_skip_ne prest repl _ (by decide : '<' ≠ '/'),
    replaceLit_skip_ne prest repl _ (Ne.symm ha),
    replaceLit_skip_ne prest repl _ (by decide : '<' ≠ '>')]
  rfl

/-- The full pipeline on an isolated bold pair. -/
theorem convList_bold (xs : List Char) (h1 : '<' ∉ xs)
    (h2 : ∀ c ∈ xs, isLineTerm c = false) :
    convertToMarkdownList ('<' :: 'b' :: '>' :: (xs ++ ['<', '/', 'b', '>']))
      = '*' :: '*' :: (xs ++ ['*', '*']) := by
  have hf : findLazyClose ['<', '/', 'b', '>'] (xs ++ ['<', '/', 'b', '>'])
      = some (xs, []) := by
    have := findLazyClose_boundary '<' ['/', 'b', '>'] xs [] h1 h2
    simpa using this
  have hbold : substTags '<' ['b', '>'] ['<', '/', 'b', '>']
      (fun x => '*' :: '*' :: x ++ ['*', '*'])
      ('<' :: 'b' :: '>' :: (xs ++ ['<', '/', 'b', '>']))
      = '*' :: '*' :: (xs ++ ['*', '*']) :=
    substTags_hit _ (by simp [List.isPrefixOf]) hf
  have hmem : '<' ∉ ('*' :: '*' :: (xs ++ ['*', '*'])) :=
    @not_mem_three '<' ['*', '*'] xs ['*', '*'] (by decide) h1 (by decide)
  unfold convertToMarkdownList
  rw [hbold,
    substTags_no_op '<' ['i', '>'] _ _ _ hmem,
    substTags_no_op '<' ['u', '>'] _ _ _ hmem,
    substAnchor_no_op _ hmem,
    replaceLit_no_op '<' ['b', 'r', '>'] _ _ hmem,
    replaceLit_no_op '<' ['b', 'r', '/', '>'] _ _ hmem,
    replaceLit_no_op '<' ['b', 'r', ' ', '/', '>'] _ _ hmem]

/-- The full pipeline on an isolated italic pair. -/
theorem convList_italic (xs : List Char) (h1 : '<' ∉ xs)
    (h2 : ∀ c ∈ xs, isLineTerm c = false) :
    convertToMarkdownList ('<' :: 'i' :: '>' :: (xs ++ ['<', '/', 'i', '>']))
      = '*' :: (xs ++ ['*']) := by
  have hb := substTags_keeps_tagpair ['b', '>'] ['<', '/', 'b', '>']
    (fun x => '*' :: '*' :: x ++ ['*', '*']) 'i' xs h1 (by decide)
    (by simp [List.isPrefixOf]) (by decide)
  have hf : findLazyClose ['<', '/', 'i', '>'] (xs ++ ['<', '/', 'i', '>'])
      = some (xs, []) := by
    have := findLazyClose_boundary '<' ['/', 'i', '>'] xs [] h1 h2
    simpa using this
  have hit : substTags '<' ['i', '>'] ['<', '/', 'i', '>'] (fun x => '*' :: x ++ ['*'])
      ('<' :: 'i' :: '>' :: (xs ++ ['<', '/', 'i', '>']))
      = '*' :: (xs ++ ['*']) :=
    substTags_hit _ (by simp [List.isPrefixOf]) hf
  have hmem : '<' ∉ ('*' :: (xs ++ ['*'])) :=
    @not_mem_three '<' ['*'] xs ['*'] (by decide) h1 (by decide)
  unfold convertToMarkdownList
  rw [hb, hit,
    substTags_no_op '<' ['u', '>'] _ _ _ hmem,
    substAnchor_no_op _ hmem,
    replaceLit_no_op '<' ['b', 'r', '>'] _ _ hmem,
    replaceLit_no_op '<' ['b', 'r', '/', '>'] _ _ hmem,
    replaceLit_no_op '<' ['b', 'r', ' ', '/', '>'] _ _ hmem]

/-- The full pipeline on an isolated underline pair: unchanged. -/
theorem convList_underline (xs : List Char) (h1 : '<' ∉ xs)
    (h2 : ∀ c ∈ xs, isLineTerm c = false) :
    convertToMarkdownList ('<' :: 'u' :: '>' :: (xs ++ ['<', '/', 'u', '>']))
      = '<' :: 'u' :: '>' :: (xs ++ ['<', '/', 'u', '>']) := by
  have hb := substTags_keeps_tagpair ['b', '>'] ['<', '/', 'b', '>']
    (fun x => '*' :: '*' :: x ++ ['*', '*']) 'u' xs h1 (by decide)
    (by simp [List.isPrefixOf]) (by decide)
  have hi := substTags_keeps_tagpair ['i', '>'] ['<', '/', 'i', '>']
    (fun x => '*' :: x ++ ['*']) 'u' xs h1 (by decide)
    (by simp [List.isPrefixOf]) (by decide)
  have hf : findLazyClose ['<', '/', 'u', '>'] (xs ++ ['<', '/', 'u', '>'])
      = some (xs, []) := by
    have := findLazyClose_boundary '<' ['/', 'u', '>'] xs [] h1 h2
    simpa using this
  have hit : substTags '<' ['u', '>'] ['<', '/', 'u', '>']
      (fun x => '<' :: 'u' :: '>' :: x ++ ['<', '/', 'u', '>'])
      ('<' :: 'u' :: '>' :: (xs ++ ['<', '/', 'u', '>']))
      = '<' :: 'u' :: '>' :: (xs ++ ['<', '/', 'u', '>']) :=
    substTags_hit _ (by simp [List.isPrefixOf]) hf
  have han := substAnchor_keeps_tagpair 'u' xs h1 (by decide)
    (by simp [List.isPrefixOf]) (by decide)
  have hbr1 := replaceLit_keeps_tagpair ['b', 'r', '>'] ['\n'] 'u' xs h1 (by decide)
    (by simp [List.isPrefixOf]) (by decide)
  have hbr2 := replaceLit_keeps_tagpair ['b', 'r', '/', '>'] ['\n'] 'u' xs h1 (by decide)
    (by simp [List.isPrefixOf]) (by decide)
  have hbr3 := replaceLit_keeps_tagpair ['b', 'r', ' ', '/', '>'] ['\n'] 'u' xs h1 (by decide)
    (by simp [List.isPrefixOf]) (by decide)
  unfold convertToMarkdownList
  rw [hb, hi, hit, han, hbr1, hbr2, hbr3]

/-- The full pipeline on an isolated anchor element. -/
theorem convList_anchor (hs ts : List Char)
    (hh1 : '<' ∉ hs) (hh2 : '"' ∉ hs) (hh3 : ∀ c ∈ hs, isLineTerm c = false)
    (ht1 : '<' ∉ ts) (ht2 : ∀ c ∈ ts, isLineTerm c = false) :
    convertToMarkdownList
        ('<' :: 'a' :: ' ' :: 'h' :: 'r' :: 'e' :: 'f' :: '=' :: '"' ::
          (hs ++ '"' :: '>' :: (ts ++ ['<', '/', 'a', '>'])))
      = '[' :: ts ++ ']' :: '(' :: hs ++ [')'] := by
  have hb := substTags_keeps_anchor ['b', '>'] ['<', '/', 'b', '>']
    (fun x => '*' :: '*' :: x ++ ['*', '*']) hs ts hh1 ht1
    (by simp [List.isPrefixOf]) (by decide)
  have hi := substTags_keeps_anchor ['i', '>'] ['<', '/', 'i', '>']
    (fun x => '*' :: x ++ ['*']) hs ts hh1 ht1
    (by simp [List.isPrefixOf]) (by decide)
  have hu := substTags_keeps_anchor ['u', '>'] ['<', '/', 'u', '>']
    (fun x => '<' :: 'u' :: '>' :: x ++ ['<', '/', 'u', '>']) hs ts hh1 ht1
    (by simp [List.isPrefixOf]) (by decide)
  have hf1 : findLazyClose ['"', '>'] (hs ++ '"' :: '>' :: (ts ++ ['<', '/', 'a', '>']))
      = some (hs, ts ++ ['<', '/', 'a', '>']) := by
    have := findLazyClose_boundary '"' ['>'] hs (ts ++ ['<', '/', 'a', '>']) hh2 hh3
    simpa [List.append_assoc] using this
  have hf2 : findLazyClose ['<', '/', 'a', '>'] (ts ++ ['<', '/', 'a', '>'])
      = some (ts, []) := by
    have := findLazyClose_boundary '<' ['/', 'a', '>'] ts [] ht1 ht2
    simpa using this
  have hit : substAnchor
      ('<' :: 'a' :: ' ' :: 'h' :: 'r' :: 'e' :: 'f' :: '=' :: '"' ::
        (hs ++ '"' :: '>' :: (ts ++ ['<', '/', 'a', '>'])))
      = '[' :: ts ++ ']' :: '(' :: hs ++ [')'] :=
    substAnchor_hit (by simp [List.isPrefixOf]) hf1 hf2
  have hmem : '<' ∉ ('[' :: ts ++ ']' :: '(' :: hs ++ [')']) := by
    simp [List.mem_cons, List.mem_append, hh1, ht1]
  unfold convertToMarkdownList
  rw [hb, hi, hu, hit,
    replaceLit_no_op '<' ['b', 'r', '>'] _ _ hmem,
    replaceLit_no_op '<' ['b', 'r', '/', '>'] _ _ hmem,
    replaceLit_no_op '<' ['b', 'r', ' ', '/', '>'] _ _ hmem]

/-! ## Claim C3: the rich-text converter -/

/-- C3: the converter (a total Lean function, so every input returns
without throwing) maps empty input to empty output; an isolated bold tag
pair around tag-free content becomes strong-emphasis markers, an italic
pair becomes emphasis markers, an underline pair is returned unchanged,
an anchor tag with an href attribute and inner text becomes the
hyperlink form `[text](href)`, and each of the three line-break
spellings becomes a single newline character. -/
theorem convertToMarkdown_spec :
    convertToMarkdown "" = "" ∧
      (∀ x : String, TagFree x →
        convertToMarkdown ("<b>" ++ x ++ "</b>") = "**" ++ x ++ "**") ∧
      (∀ x : String, TagFree x →
        convertToMarkdown ("<i>" ++ x ++ "</i>") = "*" ++ x ++ "*") ∧
      (∀ x : String, TagFree x →
        convertToMarkdown ("<u>" ++ x ++ "</u>") = "<u>" ++ x ++ "</u>") ∧
      (∀ hr t : String, TagFree hr → '"' ∉ hr.toList → TagFree t →
        convertToMarkdown ("<a href=\"" ++ hr ++ "\">" ++ t ++ "</a>")
          = "[" ++ t ++ "](" ++ hr ++ ")") ∧
      convertToMarkdown "<br>" = "\n" ∧
      convertToMarkdown "<br/>" = "\n" ∧
      convertToMarkdown "<br />" = "\n" := by
  refine ⟨by decide, ?_, ?_, ?_, ?_, by decide, by decide, by decide⟩
  · intro x hx
    obtain ⟨hx1, hx2⟩ := hx
    have hne : ("<b>" ++ x ++ "</b>") ≠ "" := by
      intro e
      have := congrArg String.data e
      simp [String.data_append] at this
    unfold convertToMarkdown
    rw [if_neg hne]
    have hdata : ("<b>" ++ x ++ "</b>").toList
        = '<' :: 'b' :: '>' :: (x.toList ++ ['<', '/', 'b', '>']) := by
      show ("<b>" ++ x ++ "</b>").data = '<' :: 'b' :: '>' :: (x.data ++ ['<', '/', 'b', '>'])
      simp [String.data_append]
    rw [hdata, convList_bold x.toList hx1 hx2]
    apply String.ext
    show '*' :: '*' :: (x.data ++ ['*', '*']) = ("**" ++ x ++ "**").data
    simp [String.data_append]
  · intro x hx
    obtain ⟨hx1, hx2⟩ := hx
    have hne : ("<i>" ++ x ++ "</i>") ≠ "" := by
      intro e
      have := congrArg String.data e
      simp [String.data_append] at this
    unfold convertToMarkdown
    rw [if_neg hne]
    have hdata : ("<i>" ++ x ++ "</i>").toList
        = '<' :: 'i' :: '>' :: (x.toList ++ ['<', '/', 'i', '>']) := by
      show ("<i>" ++ x ++ "</i>").data = '<' :: 'i' :: '>' :: (x.data ++ ['<', '/', 'i', '>'])
      simp [String.data_append]
    rw [hdata, convList_italic x.toList hx1 hx2]
    apply String.ext
    show '*' :: (x.data ++ ['*']) = ("*" ++ x ++ "*").data
    simp [String.data_append]
  · intro x hx
    obtain ⟨hx1, hx2⟩ := hx
    have hne : ("<u>" ++ x ++ "</u>") ≠ "" := by
      intro e
      have := congrArg String.data e
      simp [String.data_append] at this
    unfold convertToMarkdown
    rw [if_neg hne]
    have hdata : ("<u>" ++ x ++ "</u>").toList
        = '<' :: 'u' :: '>' :: (x.toList ++ ['<', '/', 'u', '>']) := by
      show ("<u>" ++ x ++ "</u>").data = '<' :: 'u' :: '>' :: (x.data ++ ['<', '/', 'u', '>'])
      simp [String.data_append]
    rw [hdata, convList_underline x.toList hx1 hx2]
    apply String.ext
    show '<' :: 'u' :: '>' :: (x.data ++ ['<', '/', 'u', '>']) = ("<u>" ++ x ++ "</u>").data
    simp [String.data_append]
  · intro hr t hhr hq ht
    obtain ⟨hh1, hh3⟩ := hhr
    obtain ⟨ht1, ht2⟩ := ht
    have hne : ("<a href=\"" ++ hr ++ "\">" ++ t ++ "</a>") ≠ "" := by
      intro e
      have := congrArg String.data e
      simp [String.data_append] at this
    unfold convertToMarkdown
    rw [if_neg hne]
    have hdata : ("<a href=\"" ++ hr ++ "\">" ++ t ++ "</a>").toList
        = '<' :: 'a' :: ' ' :: 'h' :: 'r' :: 'e' :: 'f' :: '=' :: '"' ::
            (hr.toList ++ '"' :: '>' :: (t.toList ++ ['<', '/', 'a', '>'])) := by
      show ("<a href=\"" ++ hr ++ "\">" ++ t ++ "</a>").data = _
      simp [String.data_append]
    rw [hdata, convList_anchor hr.toList t.toList hh1 hq hh3 ht1 ht2]
    apply String.ext
    show '[' :: t.data ++ ']' :: '(' :: hr.data ++ [')']
        = ("[" ++ t ++ "](" ++ hr ++ ")").data
    simp [String.data_append]

/-- Witness for C3: the converter evaluated at the specification's
concrete test vectors. -/
theorem convertToMarkdown_spec_witness :
    convertToMarkdown "" = "" ∧
      convertToMarkdown ("<b>" ++ "x" ++ "</b>") = "**" ++ "x" ++ "**" ∧
      convertToMarkdown ("<i>" ++ "x" ++ "</i>") = "*" ++ "x" ++ "*" ∧
      convertToMarkdown ("<u>" ++ "x" ++ "</u>") = "<u>" ++ "x" ++ "</u>" ∧
      convertToMarkdown ("<a href=\"" ++ "h" ++ "\">" ++ "t" ++ "</a>")
        = "[" ++ "t" ++ "](" ++ "h" ++ ")" ∧
      convertToMarkdown "<br>" = "\n" ∧
      convertToMarkdown "<br/>" = "\n" ∧
      convertToMarkdown "<br />" = "\n" :=
  ⟨convertToMarkdown_spec.1,
    convertToMarkdown_spec.2.1 "x" ⟨by decide, by decide⟩,
    convertToMarkdown_spec.2.2.1 "x" ⟨by decide, by decide⟩,
    convertToMarkdown_spec.2.2.2.1 "x" ⟨by decide, by decide⟩,
    convertToMarkdown_spec.2.2.2.2.1 "h" "t" ⟨by decide, by decide⟩ (by decide)
      ⟨by decide, by decide⟩,
    convertToMarkdown_spec.2.2.2.2.2.1,
    convertToMarkdown_spec.2.2.2.2.2.2.1,
    convertToMarkdown_spec.2.2.2.2.2.2.2⟩

end GFE
